import Mathlib

/-!
# tar2ociimage: the image composition pipeline of `main.go`

`main.go` is a sequence of calls into the container-registry client library, the
HTTP client and the URL parser.  The library is not part of the repository, so it
is taken as a parameter: an `Env` gives, for every library function that `run`
calls, the value that call returns.  `run` and `main` are translated
statement by statement; every library call is recorded, with its arguments, in a
trace, so that what was called, with what, and in which order is observable.
-/

namespace Tar2OciImage

/-- A Go `error` value, identified by its message (`err.Error()`). -/
abbrev Error := String

/-- A `name.Reference`; the only method `run` uses is `Name()`. -/
structure Reference where
  name : String
  deriving DecidableEq, Repr

/-- A `name.Tag`, the result of `name.NewTag`. -/
structure Tag where
  name : String
  deriving DecidableEq, Repr

/-- A `v1.Layer`, identified by its diff-id. -/
structure Layer where
  diffID : String
  deriving DecidableEq, Repr

/-- A `v1.Image`: its ordered layers and its config. -/
structure Image where
  layers : List Layer
  config : String
  deriving DecidableEq, Repr

/-- Modelled from the spec: the library constant `empty.Image`, which the
spec describes as the image with no layers and a minimal config. -/
def emptyImage : Image := ⟨[], ""⟩

/-- The fields of `*url.URL` that `run` reads. -/
structure URL where
  scheme : String
  path : String
  deriving DecidableEq, Repr

/-- The fields of `*http.Response` that `run` reads (`Body` is the byte stream). -/
structure Response where
  statusCode : Int
  body : String
  deriving DecidableEq, Repr

/-- What each library function called by `run` returns: Go `(v, err)` pairs
become `Except Error v`. -/
structure Env where
  /-- `name.ParseReference(s, name.WeakValidation)` -/
  parseReference : String → Except Error Reference
  /-- `name.NewTag(s)` -/
  newTag : String → Except Error Tag
  /-- `daemon.Image(tag)` -/
  daemonImage : Tag → Except Error Image
  /-- `remote.Image(ref)` -/
  remoteImage : Reference → Except Error Image
  /-- `url.ParseRequestURI(s)` -/
  parseRequestURI : String → Except Error URL
  /-- `http.Get(s)` -/
  httpGet : String → Except Error Response
  /-- `tarball.LayerFromReader(body)` -/
  layerFromReader : String → Except Error Layer
  /-- `tarball.LayerFromFile(path)` -/
  layerFromFile : String → Except Error Layer
  /-- `mutate.AppendLayers(image, layer)` -/
  appendLayers : Image → Layer → Except Error Image
  /-- `daemon.Write(tag, image)` -/
  daemonWrite : Tag → Image → Except Error String
  /-- `remote.Write(ref, image, remote.WithAuthFromKeychain(authn.DefaultKeychain))` -/
  remoteWrite : Reference → Image → Except Error Unit

/-- One entry of the trace: a library call with its arguments, or one of the
process-level actions of `main`. -/
inductive Event where
  | parseReference (s : String)
  | newTag (s : String)
  | daemonImage (tag : Tag)
  | remoteImage (ref : Reference)
  | parseRequestURI (s : String)
  | httpGet (s : String)
  | layerFromReader (body : String)
  | layerFromFile (path : String)
  | appendLayers (image : Image) (layer : Layer)
  | daemonWrite (tag : Tag) (image : Image)
  | remoteWrite (ref : Reference) (image : Image)
  | usage
  | logFatal (msg : Error)
  deriving DecidableEq, Repr

/-- A computation that has run: the calls it made, in order, and its value or
the error it returned. -/
structure Outcome (α : Type) where
  trace : List Event
  result : Except Error α

/-- Sequencing: the second computation runs only if the first returned no error. -/
def Outcome.bind {α β : Type} (m : Outcome α) (f : α → Outcome β) : Outcome β :=
  match m.result with
  | .error e => ⟨m.trace, .error e⟩
  | .ok a => ⟨m.trace ++ (f a).trace, (f a).result⟩

instance : Monad Outcome where
  pure a := ⟨[], .ok a⟩
  bind := Outcome.bind

/-- A library call: it is recorded, and its result is what the library returned. -/
def call {α : Type} (ev : Event) (r : Except Error α) : Outcome α := ⟨[ev], r⟩

/-- The Go statement `return err` with a non-nil error. -/
def fail {α : Type} (e : Error) : Outcome α := ⟨[], .error e⟩

/-- `func run(tarURL, baseImageName, outputImageName string, useDaemon, useRemote bool) error` -/
def run (env : Env) (tarURL baseImageName outputImageName : String)
    (useDaemon useRemote : Bool) : Outcome Unit := do
  let outputImageRef ← call (.parseReference outputImageName) (env.parseReference outputImageName)
  let mut image := emptyImage
  if baseImageName ≠ "" then
    let baseImageRef ← call (.parseReference baseImageName) (env.parseReference baseImageName)
    if useDaemon then
      let baseImageTag ← call (.newTag baseImageRef.name) (env.newTag baseImageRef.name)
      image ← call (.daemonImage baseImageTag) (env.daemonImage baseImageTag)
    if useRemote then
      image ← call (.remoteImage baseImageRef) (env.remoteImage baseImageRef)
  let parsedURL ← call (.parseRequestURI tarURL) (env.parseRequestURI tarURL)
  let layer ←
    if parsedURL.scheme = "http" ∨ parsedURL.scheme = "https" then do
      let resp ← call (.httpGet tarURL) (env.httpGet tarURL)
      if resp.statusCode ≠ 200 then
        fail ("file not valid: status code: " ++ toString resp.statusCode)
      call (.layerFromReader resp.body) (env.layerFromReader resp.body)
    else if parsedURL.scheme = "file" then
      call (.layerFromFile parsedURL.path)
        ((env.layerFromFile parsedURL.path).mapError fun err => "file not valid: " ++ err)
    else
      fail ("invalid url: " ++ tarURL)
  image ← call (.appendLayers image layer) (env.appendLayers image layer)
  if useDaemon then
    let outputImageTag ← call (.newTag outputImageRef.name) (env.newTag outputImageRef.name)
    let _ ← call (.daemonWrite outputImageTag image) (env.daemonWrite outputImageTag image)
  if useRemote then
    call (.remoteWrite outputImageRef image) (env.remoteWrite outputImageRef image)
  return ()

/-- The base-loading block of `run` (lines 45-70) as a computation of its own;
`run_eq` shows that `run` is this block followed by the others. -/
def loadBase (env : Env) (baseImageName : String) (useDaemon useRemote : Bool) :
    Outcome Image := do
  let mut image := emptyImage
  if baseImageName ≠ "" then
    let baseImageRef ← call (.parseReference baseImageName) (env.parseReference baseImageName)
    if useDaemon then
      let baseImageTag ← call (.newTag baseImageRef.name) (env.newTag baseImageRef.name)
      image ← call (.daemonImage baseImageTag) (env.daemonImage baseImageTag)
    if useRemote then
      image ← call (.remoteImage baseImageRef) (env.remoteImage baseImageRef)
  return image

/-- The tar-source block of `run` (lines 72-97) as a computation of its own. -/
def layerFrom (env : Env) (tarURL : String) : Outcome Layer := do
  let parsedURL ← call (.parseRequestURI tarURL) (env.parseRequestURI tarURL)
  if parsedURL.scheme = "http" ∨ parsedURL.scheme = "https" then do
    let resp ← call (.httpGet tarURL) (env.httpGet tarURL)
    if resp.statusCode ≠ 200 then
      fail ("file not valid: status code: " ++ toString resp.statusCode)
    call (.layerFromReader resp.body) (env.layerFromReader resp.body)
  else if parsedURL.scheme = "file" then
    call (.layerFromFile parsedURL.path)
      ((env.layerFromFile parsedURL.path).mapError fun err => "file not valid: " ++ err)
  else
    fail ("invalid url: " ++ tarURL)

/-- The publishing block of `run` (lines 104-120) as a computation of its own. -/
def publish (env : Env) (outputImageRef : Reference) (image : Image)
    (useDaemon useRemote : Bool) : Outcome Unit := do
  if useDaemon then
    let outputImageTag ← call (.newTag outputImageRef.name) (env.newTag outputImageRef.name)
    let _ ← call (.daemonWrite outputImageTag image) (env.daemonWrite outputImageTag image)
  if useRemote then
    call (.remoteWrite outputImageRef image) (env.remoteWrite outputImageRef image)
  return ()

/-- The five flag variables of `main.go`, as they stand after `flag.Parse()`. -/
structure Flags where
  tarURI : String := ""
  outputImageTagName : String := ""
  baseImageTagName : String := ""
  useDaemon : Bool := true
  useRemote : Bool := false
  deriving DecidableEq, Repr

/-- A finished process: what it did, in order, and its exit status. -/
structure Process where
  trace : List Event
  exitCode : Nat
  deriving DecidableEq, Repr

/-- `func main()`, after `flag.Parse()`.  `flag.Usage(); os.Exit(1)` ends the
process at once; `log.Fatal(err)` prints the error and exits with status 1. -/
def main (env : Env) (flags : Flags) : Process :=
  if flags.tarURI = "" ∨ flags.outputImageTagName = "" then
    ⟨[.usage], 1⟩
  else
    match run env flags.tarURI flags.baseImageTagName flags.outputImageTagName
        flags.useDaemon flags.useRemote with
    | ⟨trace, .error err⟩ => ⟨trace ++ [.logFatal err], 1⟩
    | ⟨trace, .ok _⟩ => ⟨trace, 0⟩

/-! ## Classifying the recorded calls -/

/-- A base-image load: `daemon.Image` or `remote.Image`. -/
def Event.isLoad : Event → Bool
  | .daemonImage _ => true
  | .remoteImage _ => true
  | _ => false

/-- A layer construction: `tarball.LayerFromReader` or `tarball.LayerFromFile`. -/
def Event.isLayer : Event → Bool
  | .layerFromReader _ => true
  | .layerFromFile _ => true
  | _ => false

/-- The append: `mutate.AppendLayers`. -/
def Event.isAppend : Event → Bool
  | .appendLayers _ _ => true
  | _ => false

/-- A publication: `daemon.Write` or `remote.Write`. -/
def Event.isWrite : Event → Bool
  | .daemonWrite _ _ => true
  | .remoteWrite _ _ => true
  | _ => false

/-- A call made by `run` into the library, the network, the filesystem or the
daemon: every event except the two process-level actions of `main`. -/
def Event.isCall : Event → Bool
  | .usage => false
  | .logFatal _ => false
  | _ => true

/-- The position of an external effect in the pipeline: daemon load, remote
load, GET, layer construction, append, daemon write, registry write.  Reference
parsing, tag conversion and URI parsing have no external effect. -/
def Event.step : Event → Option Nat
  | .daemonImage _ => some 1
  | .remoteImage _ => some 2
  | .httpGet _ => some 3
  | .layerFromReader _ => some 4
  | .layerFromFile _ => some 4
  | .appendLayers _ _ => some 5
  | .daemonWrite _ _ => some 6
  | .remoteWrite _ _ => some 7
  | _ => none

/-- The error of a Go `(v, err)` result, if `err` is not nil. -/
def errOf {α : Type} : Except Error α → Option Error
  | .error e => some e
  | .ok _ => none

/-- The error, if any, with which the step of `run` recorded as `ev` ends.  It is
the error the library call returned, and for three steps also what the source
does with the result before going on: after `url.ParseRequestURI` the scheme
dispatch (`invalid url: ...` for a scheme that is none of the three), after
`http.Get` the status check, and after `tarball.LayerFromFile` the wrapping
`fmt.Errorf("file not valid: %w", err)`. -/
def Env.errorOf (env : Env) : Event → Option Error
  | .parseReference s => errOf (env.parseReference s)
  | .newTag s => errOf (env.newTag s)
  | .daemonImage tag => errOf (env.daemonImage tag)
  | .remoteImage ref => errOf (env.remoteImage ref)
  | .parseRequestURI s =>
      match env.parseRequestURI s with
      | .error e => some e
      | .ok u =>
          if u.scheme = "http" ∨ u.scheme = "https" ∨ u.scheme = "file" then none
          else some ("invalid url: " ++ s)
  | .httpGet s =>
      match env.httpGet s with
      | .error e => some e
      | .ok resp =>
          if resp.statusCode ≠ 200 then
            some ("file not valid: status code: " ++ toString resp.statusCode)
          else none
  | .layerFromReader body => errOf (env.layerFromReader body)
  | .layerFromFile path =>
      errOf ((env.layerFromFile path).mapError fun err => "file not valid: " ++ err)
  | .appendLayers image layer => errOf (env.appendLayers image layer)
  | .daemonWrite tag image => errOf (env.daemonWrite tag image)
  | .remoteWrite ref image => errOf (env.remoteWrite ref image)
  | .usage => none
  | .logFatal _ => none

/-- In the trace `t` of a computation that ended with `res`, a step that failed
is the last one and its error is the error of the computation. -/
def Halted (env : Env) (res : Option Error) : List Event → Prop
  | [] => True
  | ev :: t =>
      (∀ e, env.errorOf ev = some e → t = [] ∧ res = some e) ∧ Halted env res t

/-- The external effects of the trace `t` come in pipeline order, and their
positions lie between `lo` and `hi`. -/
def Ordered (lo hi : Nat) (t : List Event) : Prop :=
  (t.filterMap Event.step).Pairwise (fun a b => a < b) ∧
    ∀ n, n ∈ t.filterMap Event.step → lo ≤ n ∧ n ≤ hi

/-- Modelled from the spec: the contract of the library function
`mutate.AppendLayers`, which section 4.4 states as `image.layers ++ [layer]`: the
new image lists the layers of the old one followed by the added layer. -/
def AppendContract (env : Env) : Prop :=
  ∀ image layer image', env.appendLayers image layer = .ok image' →
    image'.layers = image.layers ++ [layer]

/-! ## Concrete worlds, for evaluating the definitions -/

/-- A world in which the daemon and the registry answer every call.  The
reference `BAD` does not parse, a name with an `@` (a digest) is not a tag, and
`https://example.test/missing.tar` is answered with status 404. -/
def sampleEnv : Env where
  parseReference s :=
    if s = "BAD" then .error "could not parse reference: BAD" else .ok ⟨s⟩
  newTag s :=
    if '@' ∈ s.data then .error ("repository can only contain the runes a-z0-9_-./: " ++ s)
    else .ok ⟨s⟩
  daemonImage _ := .ok ⟨[⟨"d0"⟩], "daemon"⟩
  remoteImage _ := .ok ⟨[⟨"r0"⟩, ⟨"r1"⟩], "remote"⟩
  parseRequestURI s :=
    if s = "file:///tmp/a.tar" then .ok ⟨"file", "/tmp/a.tar"⟩
    else if s = "https://example.test/a.tar" then .ok ⟨"https", "/a.tar"⟩
    else if s = "https://example.test/missing.tar" then .ok ⟨"https", "/missing.tar"⟩
    else if s = "ftp://host/a.tar" then .ok ⟨"ftp", "/a.tar"⟩
    else .error "invalid URI for request"
  httpGet s :=
    if s = "https://example.test/missing.tar" then .ok ⟨404, ""⟩ else .ok ⟨200, "tar"⟩
  layerFromReader body := .ok ⟨body⟩
  layerFromFile path := .ok ⟨path⟩
  appendLayers image layer := .ok ⟨image.layers ++ [layer], image.config⟩
  daemonWrite tag _ := .ok tag.name
  remoteWrite _ _ := .ok ()

/-- The world of `sampleEnv` with a daemon that refuses every write. -/
def daemonDownEnv : Env :=
  { sampleEnv with daemonWrite := fun _ _ => .error "daemon: connection refused" }

/-- The world of `sampleEnv` with a registry that refuses every write. -/
def registryDownEnv : Env :=
  { sampleEnv with remoteWrite := fun _ _ => .error "registry: unauthorized" }

/-- The world of `sampleEnv` with a daemon that has no image to load. -/
def noDaemonImageEnv : Env :=
  { sampleEnv with daemonImage := fun _ => .error "daemon: no such image" }

/-! ## Sequencing lemmas -/

theorem bind_eq {α β : Type} (m : Outcome α) (f : α → Outcome β) : m >>= f = m.bind f := rfl

theorem pure_eq {α : Type} (a : α) : (pure a : Outcome α) = ⟨[], .ok a⟩ := rfl

theorem Outcome.bind_assoc {α β γ : Type} (m : Outcome α) (f : α → Outcome β)
    (g : β → Outcome γ) : (m.bind f).bind g = m.bind fun a => (f a).bind g := by
  unfold Outcome.bind
  cases h : m.result with
  | error e => rfl
  | ok a =>
    cases h2 : (f a).result with
    | error e => simp [h2]
    | ok b => simp [h2]

theorem Outcome.pure_bind {α β : Type} (a : α) (f : α → Outcome β) :
    (⟨[], .ok a⟩ : Outcome α).bind f = f a := rfl

theorem Outcome.ite_bind {α β : Type} (c : Prop) [Decidable c] (x y : Outcome α)
    (f : α → Outcome β) : (if c then x else y).bind f = if c then x.bind f else y.bind f := by
  split <;> rfl

/-- Every computation has returned an error or a value. -/
theorem result_cases {α : Type} (m : Outcome α) :
    (∃ e, m.result = .error e) ∨ ∃ a, m.result = .ok a := by
  cases h : m.result with
  | error e => exact Or.inl ⟨e, rfl⟩
  | ok a => exact Or.inr ⟨a, rfl⟩

/-- The source function `run` is its four blocks in sequence. -/
theorem run_eq (env : Env) (tarURL baseImageName outputImageName : String)
    (useDaemon useRemote : Bool) :
    run env tarURL baseImageName outputImageName useDaemon useRemote =
      (call (.parseReference outputImageName) (env.parseReference outputImageName)).bind
        fun outputImageRef =>
      (loadBase env baseImageName useDaemon useRemote).bind fun base =>
      (layerFrom env tarURL).bind fun layer =>
      (call (.appendLayers base layer) (env.appendLayers base layer)).bind fun image =>
      publish env outputImageRef image useDaemon useRemote := by
  unfold run loadBase layerFrom publish
  simp only [bind_eq, pure_eq, Outcome.bind_assoc, Outcome.pure_bind, Outcome.ite_bind]

/-- The outcome of `run`, by the block at which it ends. -/
theorem run_cases (env : Env) (tarURL baseImageName outputImageName : String)
    (useDaemon useRemote : Bool) :
    (∃ e, env.parseReference outputImageName = .error e ∧
      run env tarURL baseImageName outputImageName useDaemon useRemote =
        ⟨[.parseReference outputImageName], .error e⟩) ∨
    (∃ oref e, env.parseReference outputImageName = .ok oref ∧
      (loadBase env baseImageName useDaemon useRemote).result = .error e ∧
      run env tarURL baseImageName outputImageName useDaemon useRemote =
        ⟨.parseReference outputImageName ::
          (loadBase env baseImageName useDaemon useRemote).trace, .error e⟩) ∨
    (∃ oref base e, env.parseReference outputImageName = .ok oref ∧
      (loadBase env baseImageName useDaemon useRemote).result = .ok base ∧
      (layerFrom env tarURL).result = .error e ∧
      run env tarURL baseImageName outputImageName useDaemon useRemote =
        ⟨.parseReference outputImageName ::
          ((loadBase env baseImageName useDaemon useRemote).trace ++
            (layerFrom env tarURL).trace), .error e⟩) ∨
    (∃ oref base layer e, env.parseReference outputImageName = .ok oref ∧
      (loadBase env baseImageName useDaemon useRemote).result = .ok base ∧
      (layerFrom env tarURL).result = .ok layer ∧
      env.appendLayers base layer = .error e ∧
      run env tarURL baseImageName outputImageName useDaemon useRemote =
        ⟨.parseReference outputImageName ::
          ((loadBase env baseImageName useDaemon useRemote).trace ++
            ((layerFrom env tarURL).trace ++ [.appendLayers base layer])), .error e⟩) ∨
    (∃ oref base layer image, env.parseReference outputImageName = .ok oref ∧
      (loadBase env baseImageName useDaemon useRemote).result = .ok base ∧
      (layerFrom env tarURL).result = .ok layer ∧
      env.appendLayers base layer = .ok image ∧
      run env tarURL baseImageName outputImageName useDaemon useRemote =
        ⟨.parseReference outputImageName ::
          ((loadBase env baseImageName useDaemon useRemote).trace ++
            ((layerFrom env tarURL).trace ++ (.appendLayers base layer ::
              (publish env oref image useDaemon useRemote).trace))),
          (publish env oref image useDaemon useRemote).result⟩) := by
  rw [run_eq]
  cases h1 : env.parseReference outputImageName with
  | error e => exact Or.inl ⟨e, rfl, by simp [Outcome.bind, call, h1]⟩
  | ok oref =>
    right
    rcases result_cases (loadBase env baseImageName useDaemon useRemote) with ⟨e, h2⟩ | ⟨base, h2⟩
    · exact Or.inl ⟨oref, e, rfl, h2, by simp [Outcome.bind, call, h1, h2]⟩
    right
    rcases result_cases (layerFrom env tarURL) with ⟨e, h3⟩ | ⟨layer, h3⟩
    · exact Or.inl ⟨oref, base, e, rfl, h2, h3, by simp [Outcome.bind, call, h1, h2, h3]⟩
    right
    cases h4 : env.appendLayers base layer with
    | error e =>
      exact Or.inl ⟨oref, base, layer, e, rfl, h2, h3, h4,
        by simp [Outcome.bind, call, h1, h2, h3, h4]⟩
    | ok image =>
      exact Or.inr ⟨oref, base, layer, image, rfl, h2, h3, h4,
        by simp [Outcome.bind, call, h1, h2, h3, h4]⟩

/-! ## The outcomes of the blocks -/

/-- Every way the base-loading block can end. -/
theorem loadBase_cases (env : Env) (baseImageName : String) (useDaemon useRemote : Bool) :
    (baseImageName = "" ∧
      loadBase env baseImageName useDaemon useRemote = ⟨[], .ok emptyImage⟩) ∨
    (baseImageName ≠ "" ∧ ∃ e, env.parseReference baseImageName = .error e ∧
      loadBase env baseImageName useDaemon useRemote =
        ⟨[.parseReference baseImageName], .error e⟩) ∨
    (baseImageName ≠ "" ∧ ∃ bref, env.parseReference baseImageName = .ok bref ∧
      ((useDaemon = false ∧ useRemote = false ∧
          loadBase env baseImageName useDaemon useRemote =
            ⟨[.parseReference baseImageName], .ok emptyImage⟩) ∨
        (useDaemon = false ∧ useRemote = true ∧
          loadBase env baseImageName useDaemon useRemote =
            ⟨[.parseReference baseImageName, .remoteImage bref], env.remoteImage bref⟩) ∨
        (useDaemon = true ∧ ∃ e, env.newTag bref.name = .error e ∧
          loadBase env baseImageName useDaemon useRemote =
            ⟨[.parseReference baseImageName, .newTag bref.name], .error e⟩) ∨
        (useDaemon = true ∧ ∃ tag e, env.newTag bref.name = .ok tag ∧
          env.daemonImage tag = .error e ∧
          loadBase env baseImageName useDaemon useRemote =
            ⟨[.parseReference baseImageName, .newTag bref.name, .daemonImage tag], .error e⟩) ∨
        (useDaemon = true ∧ useRemote = false ∧ ∃ tag dimg, env.newTag bref.name = .ok tag ∧
          env.daemonImage tag = .ok dimg ∧
          loadBase env baseImageName useDaemon useRemote =
            ⟨[.parseReference baseImageName, .newTag bref.name, .daemonImage tag], .ok dimg⟩) ∨
        (useDaemon = true ∧ useRemote = true ∧ ∃ tag dimg, env.newTag bref.name = .ok tag ∧
          env.daemonImage tag = .ok dimg ∧
          loadBase env baseImageName useDaemon useRemote =
            ⟨[.parseReference baseImageName, .newTag bref.name, .daemonImage tag,
              .remoteImage bref], env.remoteImage bref⟩))) := by
  unfold loadBase
  simp only [bind_eq, pure_eq, Outcome.bind, call]
  by_cases hb : baseImageName = ""
  · simp [hb]
  cases h1 : env.parseReference baseImageName with
  | error e => simp [hb, h1]
  | ok bref =>
    cases useDaemon
    · cases useRemote
      · simp [hb, h1]
      · cases h2 : env.remoteImage bref <;> simp [hb, h1, h2]
    · cases h3 : env.newTag bref.name with
      | error e => simp [hb, h1, h3]
      | ok tag =>
        cases h4 : env.daemonImage tag with
        | error e => simp [hb, h1, h3, h4]
        | ok dimg =>
          cases useRemote
          · simp [hb, h1, h3, h4]
          · cases h2 : env.remoteImage bref <;> simp [hb, h1, h3, h4, h2]

/-- Every way the tar-source block can end. -/
theorem layerFrom_cases (env : Env) (tarURL : String) :
    (∃ e, env.parseRequestURI tarURL = .error e ∧
      layerFrom env tarURL = ⟨[.parseRequestURI tarURL], .error e⟩) ∨
    (∃ u, env.parseRequestURI tarURL = .ok u ∧
      (((u.scheme = "http" ∨ u.scheme = "https") ∧ ∃ e, env.httpGet tarURL = .error e ∧
          layerFrom env tarURL = ⟨[.parseRequestURI tarURL, .httpGet tarURL], .error e⟩) ∨
        ((u.scheme = "http" ∨ u.scheme = "https") ∧ ∃ resp, env.httpGet tarURL = .ok resp ∧
          resp.statusCode ≠ 200 ∧
          layerFrom env tarURL =
            ⟨[.parseRequestURI tarURL, .httpGet tarURL],
              .error ("file not valid: status code: " ++ toString resp.statusCode)⟩) ∨
        ((u.scheme = "http" ∨ u.scheme = "https") ∧ ∃ resp, env.httpGet tarURL = .ok resp ∧
          resp.statusCode = 200 ∧
          layerFrom env tarURL =
            ⟨[.parseRequestURI tarURL, .httpGet tarURL, .layerFromReader resp.body],
              env.layerFromReader resp.body⟩) ∨
        (¬ (u.scheme = "http" ∨ u.scheme = "https") ∧ u.scheme = "file" ∧
          layerFrom env tarURL =
            ⟨[.parseRequestURI tarURL, .layerFromFile u.path],
              (env.layerFromFile u.path).mapError fun err => "file not valid: " ++ err⟩) ∨
        (¬ (u.scheme = "http" ∨ u.scheme = "https") ∧ u.scheme ≠ "file" ∧
          layerFrom env tarURL =
            ⟨[.parseRequestURI tarURL], .error ("invalid url: " ++ tarURL)⟩))) := by
  unfold layerFrom
  simp only [bind_eq, pure_eq, Outcome.bind, call, fail]
  cases h1 : env.parseRequestURI tarURL with
  | error e => simp
  | ok u =>
    by_cases hs : u.scheme = "http" ∨ u.scheme = "https"
    · cases h2 : env.httpGet tarURL with
      | error e => simp [hs]
      | ok resp =>
        by_cases hc : resp.statusCode = 200
        · cases h3 : env.layerFromReader resp.body <;> simp [hs, hc, h3]
        · simp [hs, hc]
    · by_cases hf : u.scheme = "file"
      · simp [hs, hf]
      · have hs2 := not_or.mp hs
        simp [hs2.1, hs2.2, hf]

/-- Every way the publishing block can end. -/
theorem publish_cases (env : Env) (oref : Reference) (image : Image)
    (useDaemon useRemote : Bool) :
    (useDaemon = false ∧ useRemote = false ∧
      publish env oref image useDaemon useRemote = ⟨[], .ok ()⟩) ∨
    (useDaemon = false ∧ useRemote = true ∧
      publish env oref image useDaemon useRemote =
        ⟨[.remoteWrite oref image], env.remoteWrite oref image⟩) ∨
    (useDaemon = true ∧ ∃ e, env.newTag oref.name = .error e ∧
      publish env oref image useDaemon useRemote = ⟨[.newTag oref.name], .error e⟩) ∨
    (useDaemon = true ∧ ∃ tag e, env.newTag oref.name = .ok tag ∧
      env.daemonWrite tag image = .error e ∧
      publish env oref image useDaemon useRemote =
        ⟨[.newTag oref.name, .daemonWrite tag image], .error e⟩) ∨
    (useDaemon = true ∧ useRemote = false ∧ ∃ tag id, env.newTag oref.name = .ok tag ∧
      env.daemonWrite tag image = .ok id ∧
      publish env oref image useDaemon useRemote =
        ⟨[.newTag oref.name, .daemonWrite tag image], .ok ()⟩) ∨
    (useDaemon = true ∧ useRemote = true ∧ ∃ tag id, env.newTag oref.name = .ok tag ∧
      env.daemonWrite tag image = .ok id ∧
      publish env oref image useDaemon useRemote =
        ⟨[.newTag oref.name, .daemonWrite tag image, .remoteWrite oref image],
          env.remoteWrite oref image⟩) := by
  unfold publish
  simp only [bind_eq, pure_eq, Outcome.bind, call]
  cases useDaemon
  · cases useRemote
    · simp
    · cases h2 : env.remoteWrite oref image <;> simp [h2]
  · cases h3 : env.newTag oref.name with
    | error e => simp [h3]
    | ok tag =>
      cases h4 : env.daemonWrite tag image with
      | error e => simp [h3, h4]
      | ok id =>
        cases useRemote
        · simp [h3, h4]
        · cases h2 : env.remoteWrite oref image <;> simp [h3, h4, h2]

/-- The base-loading block only parses a reference, converts it to a tag and loads. -/
theorem loadBase_shape {env : Env} {baseImageName : String} {useDaemon useRemote : Bool}
    {ev : Event} (h : ev ∈ (loadBase env baseImageName useDaemon useRemote).trace) :
    ev = .parseReference baseImageName ∨ (∃ s, ev = .newTag s) ∨
      (useDaemon = true ∧ ∃ tag, ev = .daemonImage tag) ∨
      (useRemote = true ∧ ∃ ref, ev = .remoteImage ref) := by
  rcases loadBase_cases env baseImageName useDaemon useRemote with
    ⟨-, h1⟩ | ⟨-, e, -, h1⟩ | ⟨-, bref, -, ⟨-, -, h1⟩ | ⟨-, hr, h1⟩ | ⟨hd, e, -, h1⟩ |
      ⟨hd, tag, e, -, -, h1⟩ | ⟨hd, -, tag, dimg, -, -, h1⟩ | ⟨hd, hr, tag, dimg, -, -, h1⟩⟩ <;>
    rw [h1] at h <;> simp at h <;> aesop

/-- The tar-source block only parses the URI, issues the GET and builds the layer. -/
theorem layerFrom_shape {env : Env} {tarURL : String} {ev : Event}
    (h : ev ∈ (layerFrom env tarURL).trace) :
    ev = .parseRequestURI tarURL ∨ ev = .httpGet tarURL ∨ (∃ body, ev = .layerFromReader body) ∨
      ∃ path, ev = .layerFromFile path := by
  rcases layerFrom_cases env tarURL with
    ⟨e, -, h1⟩ | ⟨u, -, ⟨-, e, -, h1⟩ | ⟨-, resp, -, -, h1⟩ | ⟨-, resp, -, -, h1⟩ |
      ⟨-, -, h1⟩ | ⟨-, -, h1⟩⟩ <;>
    rw [h1] at h <;> simp at h <;> aesop

/-- The publishing block only converts the output reference and writes the image
it was given. -/
theorem publish_shape {env : Env} {oref : Reference} {image : Image}
    {useDaemon useRemote : Bool} {ev : Event}
    (h : ev ∈ (publish env oref image useDaemon useRemote).trace) :
    (useDaemon = true ∧ ev = .newTag oref.name) ∨
      (useDaemon = true ∧ ∃ tag, ev = .daemonWrite tag image) ∨
      (useRemote = true ∧ ev = .remoteWrite oref image) := by
  rcases publish_cases env oref image useDaemon useRemote with
    ⟨-, -, h1⟩ | ⟨-, hr, h1⟩ | ⟨hd, e, -, h1⟩ | ⟨hd, tag, e, -, -, h1⟩ |
      ⟨hd, -, tag, id, -, -, h1⟩ | ⟨hd, hr, tag, id, -, -, h1⟩ <;>
    rw [h1] at h <;> simp at h <;> aesop

theorem run_of_parse_error {env : Env} {outputImageName : String} {e : Error}
    (tarURL baseImageName : String) (useDaemon useRemote : Bool)
    (h1 : env.parseReference outputImageName = .error e) :
    run env tarURL baseImageName outputImageName useDaemon useRemote =
      ⟨[.parseReference outputImageName], .error e⟩ := by
  rw [run_eq]; simp [Outcome.bind, call, h1]

theorem run_of_loadBase_error {env : Env} {baseImageName outputImageName : String}
    {useDaemon useRemote : Bool} {oref : Reference} {e : Error} (tarURL : String)
    (h1 : env.parseReference outputImageName = .ok oref)
    (h2 : (loadBase env baseImageName useDaemon useRemote).result = .error e) :
    run env tarURL baseImageName outputImageName useDaemon useRemote =
      ⟨.parseReference outputImageName ::
        (loadBase env baseImageName useDaemon useRemote).trace, .error e⟩ := by
  rw [run_eq]; simp [Outcome.bind, call, h1, h2]

theorem run_of_layerFrom_error {env : Env} {tarURL baseImageName outputImageName : String}
    {useDaemon useRemote : Bool} {oref : Reference} {base : Image} {e : Error}
    (h1 : env.parseReference outputImageName = .ok oref)
    (h2 : (loadBase env baseImageName useDaemon useRemote).result = .ok base)
    (h3 : (layerFrom env tarURL).result = .error e) :
    run env tarURL baseImageName outputImageName useDaemon useRemote =
      ⟨.parseReference outputImageName ::
        ((loadBase env baseImageName useDaemon useRemote).trace ++
          (layerFrom env tarURL).trace), .error e⟩ := by
  rw [run_eq]; simp [Outcome.bind, call, h1, h2, h3]

theorem run_of_append_error {env : Env} {tarURL baseImageName outputImageName : String}
    {useDaemon useRemote : Bool} {oref : Reference} {base : Image} {layer : Layer} {e : Error}
    (h1 : env.parseReference outputImageName = .ok oref)
    (h2 : (loadBase env baseImageName useDaemon useRemote).result = .ok base)
    (h3 : (layerFrom env tarURL).result = .ok layer)
    (h4 : env.appendLayers base layer = .error e) :
    run env tarURL baseImageName outputImageName useDaemon useRemote =
      ⟨.parseReference outputImageName ::
        ((loadBase env baseImageName useDaemon useRemote).trace ++
          ((layerFrom env tarURL).trace ++ [.appendLayers base layer])), .error e⟩ := by
  rw [run_eq]; simp [Outcome.bind, call, h1, h2, h3, h4]

theorem run_of_append_ok {env : Env} {tarURL baseImageName outputImageName : String}
    {useDaemon useRemote : Bool} {oref : Reference} {base : Image} {layer : Layer}
    {image : Image}
    (h1 : env.parseReference outputImageName = .ok oref)
    (h2 : (loadBase env baseImageName useDaemon useRemote).result = .ok base)
    (h3 : (layerFrom env tarURL).result = .ok layer)
    (h4 : env.appendLayers base layer = .ok image) :
    run env tarURL baseImageName outputImageName useDaemon useRemote =
      ⟨.parseReference outputImageName ::
        ((loadBase env baseImageName useDaemon useRemote).trace ++
          ((layerFrom env tarURL).trace ++ (.appendLayers base layer ::
            (publish env oref image useDaemon useRemote).trace))),
        (publish env oref image useDaemon useRemote).result⟩ := by
  rw [run_eq]; simp [Outcome.bind, call, h1, h2, h3, h4]

/-- A URI whose scheme is none of the three ends the tar-source block at the
dispatch. -/
theorem layerFrom_other_scheme {env : Env} {tarURL : String} {u : URL}
    (hu : env.parseRequestURI tarURL = .ok u) (h1 : u.scheme ≠ "file")
    (h2 : u.scheme ≠ "http") (h3 : u.scheme ≠ "https") :
    layerFrom env tarURL = ⟨[.parseRequestURI tarURL], .error ("invalid url: " ++ tarURL)⟩ := by
  rcases layerFrom_cases env tarURL with
    ⟨e, h, -⟩ | ⟨v, hv, ⟨hs, -⟩ | ⟨hs, -⟩ | ⟨hs, -⟩ | ⟨-, hf, -⟩ | ⟨-, -, h⟩⟩
  · rw [hu] at h; cases h
  all_goals first
    | exact h
    | (rw [hu] at hv; cases hv; first
        | exact absurd hf h1
        | (rcases hs with hs | hs
           · exact absurd hs h2
           · exact absurd hs h3))

/-- For an `http` or `https` URI, a response with a status other than 200 ends the
tar-source block after the GET. -/
theorem layerFrom_bad_status {env : Env} {tarURL : String} {u : URL} {resp : Response}
    (hu : env.parseRequestURI tarURL = .ok u)
    (hs : u.scheme = "http" ∨ u.scheme = "https")
    (hget : env.httpGet tarURL = .ok resp) (hN : resp.statusCode ≠ 200) :
    layerFrom env tarURL =
      ⟨[.parseRequestURI tarURL, .httpGet tarURL],
        .error ("file not valid: status code: " ++ toString resp.statusCode)⟩ := by
  rcases layerFrom_cases env tarURL with
    ⟨e, hv, -⟩ | ⟨v, hv, ⟨-, e, hg, -⟩ | ⟨-, r, hg, -, h⟩ | ⟨-, r, hg, hr, -⟩ |
      ⟨hn, -, -⟩ | ⟨hn, -, -⟩⟩
  · rw [hu] at hv; cases hv
  · rw [hget] at hg; cases hg
  · rw [hget] at hg; cases hg
    exact h
  · rw [hget] at hg; cases hg
    exact absurd hr hN
  · rw [hu] at hv; cases hv
    exact absurd hs hn
  · rw [hu] at hv; cases hv
    exact absurd hs hn

/-- Where an event of the trace of `run` comes from. -/
theorem run_mem_trace {env : Env} {tarURL baseImageName outputImageName : String}
    {useDaemon useRemote : Bool} {ev : Event}
    (h : ev ∈ (run env tarURL baseImageName outputImageName useDaemon useRemote).trace) :
    ev = .parseReference outputImageName ∨
    (∃ oref, env.parseReference outputImageName = .ok oref ∧
      ev ∈ (loadBase env baseImageName useDaemon useRemote).trace) ∨
    (∃ oref base, env.parseReference outputImageName = .ok oref ∧
      (loadBase env baseImageName useDaemon useRemote).result = .ok base ∧
      ev ∈ (layerFrom env tarURL).trace) ∨
    (∃ oref base layer, env.parseReference outputImageName = .ok oref ∧
      (loadBase env baseImageName useDaemon useRemote).result = .ok base ∧
      (layerFrom env tarURL).result = .ok layer ∧
      (ev = .appendLayers base layer ∨
        ∃ image, env.appendLayers base layer = .ok image ∧
          ev ∈ (publish env oref image useDaemon useRemote).trace)) := by
  rcases run_cases env tarURL baseImageName outputImageName useDaemon useRemote with
    ⟨e, -, h0⟩ | ⟨oref, e, h1, -, h0⟩ | ⟨oref, base, e, h1, h2, -, h0⟩ |
      ⟨oref, base, layer, e, h1, h2, h3, -, h0⟩ | ⟨oref, base, layer, image, h1, h2, h3, h4, h0⟩ <;>
    rw [h0] at h <;> simp only [List.mem_cons, List.mem_append, List.mem_singleton,
      List.not_mem_nil, or_false] at h
  · exact Or.inl h
  · rcases h with h | h
    · exact Or.inl h
    · exact Or.inr (Or.inl ⟨oref, h1, h⟩)
  · rcases h with h | h | h
    · exact Or.inl h
    · exact Or.inr (Or.inl ⟨oref, h1, h⟩)
    · exact Or.inr (Or.inr (Or.inl ⟨oref, base, h1, h2, h⟩))
  · rcases h with h | h | h | h
    · exact Or.inl h
    · exact Or.inr (Or.inl ⟨oref, h1, h⟩)
    · exact Or.inr (Or.inr (Or.inl ⟨oref, base, h1, h2, h⟩))
    · exact Or.inr (Or.inr (Or.inr ⟨oref, base, layer, h1, h2, h3, Or.inl h⟩))
  · rcases h with h | h | h | h | h
    · exact Or.inl h
    · exact Or.inr (Or.inl ⟨oref, h1, h⟩)
    · exact Or.inr (Or.inr (Or.inl ⟨oref, base, h1, h2, h⟩))
    · exact Or.inr (Or.inr (Or.inr ⟨oref, base, layer, h1, h2, h3, Or.inl h⟩))
    · exact Or.inr (Or.inr (Or.inr ⟨oref, base, layer, h1, h2, h3, Or.inr ⟨image, h4, h⟩⟩))

/-- With no base image name the base-loading block does nothing. -/
theorem loadBase_empty (env : Env) (useDaemon useRemote : Bool) :
    loadBase env "" useDaemon useRemote = ⟨[], .ok emptyImage⟩ := by
  rcases loadBase_cases env "" useDaemon useRemote with ⟨-, h⟩ | ⟨hne, -⟩ | ⟨hne, -⟩
  · exact h
  · exact absurd rfl hne
  · exact absurd rfl hne

/-- With neither destination requested the base-loading block only parses the name. -/
theorem loadBase_dry (env : Env) (baseImageName : String) (bref : Reference)
    (hne : baseImageName ≠ "") (hp : env.parseReference baseImageName = .ok bref) :
    loadBase env baseImageName false false =
      ⟨[.parseReference baseImageName], .ok emptyImage⟩ := by
  rcases loadBase_cases env baseImageName false false with
    ⟨h0, -⟩ | ⟨-, e, h1, -⟩ | ⟨-, b, -, ⟨-, -, h1⟩ | ⟨-, hr, -⟩ | ⟨hd, -⟩ |
      ⟨hd, -⟩ | ⟨hd, -⟩ | ⟨hd, -⟩⟩
  · exact absurd h0 hne
  · rw [hp] at h1; cases h1
  · exact h1
  all_goals simp at *

/-- With neither destination requested the publishing block does nothing. -/
theorem publish_dry (env : Env) (oref : Reference) (image : Image) :
    publish env oref image false false = ⟨[], .ok ()⟩ := by
  rcases publish_cases env oref image false false with
    ⟨-, -, h⟩ | ⟨-, hr, -⟩ | ⟨hd, -⟩ | ⟨hd, -⟩ | ⟨hd, -⟩ | ⟨hd, -⟩
  · exact h
  all_goals simp at *

/-- A failed tag conversion ends the publishing block before any write. -/
theorem publish_tag_error {env : Env} {oref : Reference} {e : Error} (image : Image)
    (useRemote : Bool) (ht : env.newTag oref.name = .error e) :
    publish env oref image true useRemote = ⟨[.newTag oref.name], .error e⟩ := by
  rcases publish_cases env oref image true useRemote with
    ⟨hd, -⟩ | ⟨hd, -⟩ | ⟨-, e2, h1, h⟩ | ⟨-, tag, e2, h1, -⟩ | ⟨-, -, tag, id, h1, -⟩ |
      ⟨-, -, tag, id, h1, -⟩
  · simp at hd
  · simp at hd
  · rw [ht] at h1; cases h1; exact h
  all_goals (rw [ht] at h1; cases h1)

/-- A tag conversion recorded by the base-loading block that fails ends the block
with its error. -/
theorem loadBase_tag_error {env : Env} {baseImageName s : String}
    {useDaemon useRemote : Bool} {e : Error}
    (hmem : Event.newTag s ∈ (loadBase env baseImageName useDaemon useRemote).trace)
    (ht : env.newTag s = .error e) :
    (loadBase env baseImageName useDaemon useRemote).result = .error e ∧
    ∀ ev, ev ∈ (loadBase env baseImageName useDaemon useRemote).trace → ev.isLoad = false := by
  rcases loadBase_cases env baseImageName useDaemon useRemote with
    ⟨-, h1⟩ | ⟨-, e2, -, h1⟩ | ⟨-, bref, -, ⟨-, -, h1⟩ | ⟨-, hr, h1⟩ | ⟨hd, e2, h2, h1⟩ |
      ⟨hd, tag, e2, h2, -, h1⟩ | ⟨hd, -, tag, dimg, h2, -, h1⟩ |
      ⟨hd, hr, tag, dimg, h2, -, h1⟩⟩ <;>
    rw [h1] at hmem ⊢ <;> simp at hmem <;> subst hmem <;> rw [ht] at h2 <;> cases h2
  refine ⟨rfl, ?_⟩
  intro ev hev
  simp at hev
  rcases hev with h | h <;> subst h <;> rfl

/-- The exit status of `main`: 1 without the two required flags, and otherwise 1
or 0 as `run` returns an error or not. -/
theorem main_exit (env : Env) (flags : Flags) :
    (flags.tarURI = "" ∨ flags.outputImageTagName = "" → main env flags = ⟨[.usage], 1⟩) ∧
    (flags.tarURI ≠ "" ∧ flags.outputImageTagName ≠ "" →
      (∀ err, (run env flags.tarURI flags.baseImageTagName flags.outputImageTagName
          flags.useDaemon flags.useRemote).result = .error err →
        main env flags =
          ⟨(run env flags.tarURI flags.baseImageTagName flags.outputImageTagName
            flags.useDaemon flags.useRemote).trace ++ [.logFatal err], 1⟩) ∧
      ((run env flags.tarURI flags.baseImageTagName flags.outputImageTagName
          flags.useDaemon flags.useRemote).result = .ok () →
        (main env flags).exitCode = 0)) := by
  constructor
  · intro h
    simp [main, h]
  · rintro ⟨h1, h2⟩
    have hc : ¬ (flags.tarURI = "" ∨ flags.outputImageTagName = "") := by
      rintro (h | h)
      · exact h1 h
      · exact h2 h
    cases hr : run env flags.tarURI flags.baseImageTagName flags.outputImageTagName
      flags.useDaemon flags.useRemote with
    | mk trace result =>
      cases result with
      | error err =>
        refine ⟨?_, ?_⟩
        · intro err2 h; cases h
          simp only [main, hc, if_false, hr]
        · intro h; cases h
      | ok v =>
        refine ⟨?_, ?_⟩
        · intro err2 h; cases h
        · intro _
          simp only [main, hc, if_false, hr]

/-- After the output reference has parsed, the trace of `run` goes on with the
whole trace of the base-loading block. -/
theorem run_trace_split {env : Env} {outputImageName : String} {oref : Reference}
    (tarURL baseImageName : String) (useDaemon useRemote : Bool)
    (hp : env.parseReference outputImageName = .ok oref) :
    ∃ rest, (run env tarURL baseImageName outputImageName useDaemon useRemote).trace =
      .parseReference outputImageName ::
        ((loadBase env baseImageName useDaemon useRemote).trace ++ rest) := by
  rcases run_cases env tarURL baseImageName outputImageName useDaemon useRemote with
    ⟨e, h1, h⟩ | ⟨oref, e, -, -, h⟩ | ⟨oref, base, e, -, -, -, h⟩ |
      ⟨oref, base, layer, e, -, -, -, -, h⟩ | ⟨oref, base, layer, image, -, -, -, -, h⟩
  · rw [hp] at h1; cases h1
  · exact ⟨[], by rw [h, List.append_nil]⟩
  · exact ⟨_, by rw [h]⟩
  · exact ⟨_, by rw [h]⟩
  · exact ⟨_, by rw [h]⟩

/-- With a base image name and both destinations requested, the base-loading
block ends in one of four ways. -/
theorem loadBase_both (env : Env) (baseImageName : String) (hne : baseImageName ≠ "") :
    (∃ e, env.parseReference baseImageName = .error e ∧
      loadBase env baseImageName true true = ⟨[.parseReference baseImageName], .error e⟩) ∨
    (∃ bref e, env.parseReference baseImageName = .ok bref ∧
      env.newTag bref.name = .error e ∧
      loadBase env baseImageName true true =
        ⟨[.parseReference baseImageName, .newTag bref.name], .error e⟩) ∨
    (∃ bref tag e, env.parseReference baseImageName = .ok bref ∧
      env.newTag bref.name = .ok tag ∧ env.daemonImage tag = .error e ∧
      loadBase env baseImageName true true =
        ⟨[.parseReference baseImageName, .newTag bref.name, .daemonImage tag], .error e⟩) ∨
    (∃ bref tag dimg, env.parseReference baseImageName = .ok bref ∧
      env.newTag bref.name = .ok tag ∧ env.daemonImage tag = .ok dimg ∧
      loadBase env baseImageName true true =
        ⟨[.parseReference baseImageName, .newTag bref.name, .daemonImage tag,
          .remoteImage bref], env.remoteImage bref⟩) := by
  rcases loadBase_cases env baseImageName true true with
    ⟨h0, -⟩ | ⟨-, e, h1, h⟩ | ⟨-, bref, hp, ⟨hd, -⟩ | ⟨hd, -⟩ | ⟨-, e, h2, h⟩ |
      ⟨-, tag, e, h2, h3, h⟩ | ⟨-, hr, -⟩ | ⟨-, -, tag, dimg, h2, h3, h⟩⟩
  · exact absurd h0 hne
  · exact Or.inl ⟨e, h1, h⟩
  · simp at hd
  · simp at hd
  · exact Or.inr (Or.inl ⟨bref, e, hp, h2, h⟩)
  · exact Or.inr (Or.inr (Or.inl ⟨bref, tag, e, hp, h2, h3, h⟩))
  · simp at hr
  · exact Or.inr (Or.inr (Or.inr ⟨bref, tag, dimg, hp, h2, h3, h⟩))

/-! ## Order and early stop -/

theorem halted_append {env : Env} {res : Option Error} {l1 l2 : List Event}
    (h1 : ∀ ev, ev ∈ l1 → env.errorOf ev = none) (h2 : Halted env res l2) :
    Halted env res (l1 ++ l2) := by
  induction l1 with
  | nil => exact h2
  | cons a t ih =>
    refine ⟨?_, ih fun ev hev => h1 ev (List.mem_cons_of_mem _ hev)⟩
    intro e he
    rw [h1 a (List.mem_cons_self _ _)] at he
    cases he

theorem halted_split {env : Env} {res : Option Error} {t : List Event}
    (h : Halted env res t) (pre : List Event) (ev : Event) (post : List Event)
    (ht : t = pre ++ ev :: post) (e : Error) (he : env.errorOf ev = some e) :
    post = [] ∧ res = some e := by
  induction pre generalizing t with
  | nil =>
    subst ht
    exact h.1 e he
  | cons a pre ih =>
    subst ht
    exact ih h.2 rfl

theorem ordered_nil (lo hi : Nat) : Ordered lo hi [] := by
  simp [Ordered]

theorem ordered_append {lo1 hi1 lo2 hi2 : Nat} {l1 l2 : List Event} (h1 : Ordered lo1 hi1 l1)
    (h2 : Ordered lo2 hi2 l2) (hlt : hi1 < lo2) (hlo : lo1 ≤ lo2) (hhi : hi1 ≤ hi2) :
    Ordered lo1 hi2 (l1 ++ l2) := by
  refine ⟨?_, ?_⟩
  · rw [List.filterMap_append, List.pairwise_append]
    refine ⟨h1.1, h2.1, ?_⟩
    intro a ha b hb
    have := (h1.2 a ha).2
    have := (h2.2 b hb).1
    omega
  · intro n hn
    rw [List.filterMap_append, List.mem_append] at hn
    rcases hn with hn | hn
    · have := h1.2 n hn; omega
    · have := h2.2 n hn; omega

/-- The base-loading block: order, early stop, and what its error is. -/
theorem loadBase_steps (env : Env) (baseImageName : String) (useDaemon useRemote : Bool) :
    Ordered 1 2 (loadBase env baseImageName useDaemon useRemote).trace ∧
    Halted env (errOf (loadBase env baseImageName useDaemon useRemote).result)
      (loadBase env baseImageName useDaemon useRemote).trace ∧
    (∀ base, (loadBase env baseImageName useDaemon useRemote).result = .ok base →
      ∀ ev, ev ∈ (loadBase env baseImageName useDaemon useRemote).trace →
        env.errorOf ev = none) ∧
    (∀ e, (loadBase env baseImageName useDaemon useRemote).result = .error e →
      ∃ pre ev, (loadBase env baseImageName useDaemon useRemote).trace = pre ++ [ev] ∧
        env.errorOf ev = some e) := by
  rcases loadBase_cases env baseImageName useDaemon useRemote with
    ⟨-, h⟩ | ⟨-, e, k1, h⟩ | ⟨-, bref, k1, ⟨-, -, h⟩ | ⟨-, -, h⟩ | ⟨-, e, k2, h⟩ |
      ⟨-, tag, e, k2, k3, h⟩ | ⟨-, -, tag, dimg, k2, k3, h⟩ | ⟨-, -, tag, dimg, k2, k3, h⟩⟩ <;>
    rw [h]
  · simp [Ordered, Halted]
  · refine ⟨by simp [Ordered, Event.step], by simp [Halted, Env.errorOf, errOf, k1], by simp, ?_⟩
    intro e2 he
    exact ⟨[], _, rfl, by simpa [Env.errorOf, errOf, k1] using he⟩
  · simp [Ordered, Halted, Event.step, Env.errorOf, errOf, k1]
  · refine ⟨by simp [Ordered, Event.step], ?_, ?_, ?_⟩
    · cases k4 : env.remoteImage bref <;> simp [Halted, Env.errorOf, errOf, k1, k4]
    · intro base hb
      simp only at hb
      simp [Env.errorOf, errOf, k1, hb]
    · intro e2 he
      simp only at he
      exact ⟨[_], _, rfl, by simp [Env.errorOf, errOf, he]⟩
  · refine ⟨by simp [Ordered, Event.step], by simp [Halted, Env.errorOf, errOf, k1, k2],
      by simp, ?_⟩
    intro e2 he
    exact ⟨[_], _, rfl, by simpa [Env.errorOf, errOf, k2] using he⟩
  · refine ⟨by simp [Ordered, Event.step],
      by simp [Halted, Env.errorOf, errOf, k1, k2, k3], by simp, ?_⟩
    intro e2 he
    exact ⟨[_, _], _, rfl, by simpa [Env.errorOf, errOf, k3] using he⟩
  · simp [Ordered, Halted, Event.step, Env.errorOf, errOf, k1, k2, k3]
  · refine ⟨by simp [Ordered, Event.step], ?_, ?_, ?_⟩
    · cases k4 : env.remoteImage bref <;> simp [Halted, Env.errorOf, errOf, k1, k2, k3, k4]
    · intro base hb
      simp only at hb
      simp [Env.errorOf, errOf, k1, k2, k3, hb]
    · intro e2 he
      simp only at he
      exact ⟨[_, _, _], _, rfl, by simp [Env.errorOf, errOf, he]⟩

/-- The step of parsing the URI succeeds when the scheme is one of the three. -/
theorem errorOf_parseRequestURI_ok {env : Env} {tarURL : String} {u : URL}
    (k1 : env.parseRequestURI tarURL = .ok u)
    (hs : u.scheme = "http" ∨ u.scheme = "https" ∨ u.scheme = "file") :
    env.errorOf (.parseRequestURI tarURL) = none := by
  simp only [Env.errorOf, k1]
  rw [if_pos hs]

/-- The tar-source block: order, early stop, and what its error is. -/
theorem layerFrom_steps (env : Env) (tarURL : String) :
    Ordered 3 4 (layerFrom env tarURL).trace ∧
    Halted env (errOf (layerFrom env tarURL).result) (layerFrom env tarURL).trace ∧
    (∀ layer, (layerFrom env tarURL).result = .ok layer →
      ∀ ev, ev ∈ (layerFrom env tarURL).trace → env.errorOf ev = none) ∧
    (∀ e, (layerFrom env tarURL).result = .error e →
      ∃ pre ev, (layerFrom env tarURL).trace = pre ++ [ev] ∧ env.errorOf ev = some e) := by
  rcases layerFrom_cases env tarURL with
    ⟨e, k1, h⟩ | ⟨u, k1, ⟨hs, e, k2, h⟩ | ⟨hs, resp, k2, hr, h⟩ | ⟨hs, resp, k2, hr, h⟩ |
      ⟨hs, hf, h⟩ | ⟨hs, hf, h⟩⟩ <;>
    rw [h]
  · have hp : env.errorOf (.parseRequestURI tarURL) = some e := by simp [Env.errorOf, k1]
    refine ⟨by simp [Ordered, Event.step], by simp [Halted, hp, errOf], by simp, ?_⟩
    intro e2 he
    cases he
    exact ⟨[], _, rfl, hp⟩
  · have hp := errorOf_parseRequestURI_ok k1 (by tauto)
    have hg : env.errorOf (.httpGet tarURL) = some e := by simp [Env.errorOf, k2]
    refine ⟨by simp [Ordered, Event.step], by simp [Halted, hp, hg, errOf], by simp, ?_⟩
    intro e2 he
    cases he
    exact ⟨[_], _, rfl, hg⟩
  · have hp := errorOf_parseRequestURI_ok k1 (by tauto)
    have hg : env.errorOf (.httpGet tarURL) =
        some ("file not valid: status code: " ++ toString resp.statusCode) := by
      simp [Env.errorOf, k2, hr]
    refine ⟨by simp [Ordered, Event.step], by simp [Halted, hp, hg, errOf], by simp, ?_⟩
    intro e2 he
    cases he
    exact ⟨[_], _, rfl, hg⟩
  · have hp := errorOf_parseRequestURI_ok k1 (by tauto)
    have hg : env.errorOf (.httpGet tarURL) = none := by
      simp [Env.errorOf, k2, hr]
    have hl : env.errorOf (.layerFromReader resp.body) =
        errOf (env.layerFromReader resp.body) := rfl
    refine ⟨by simp [Ordered, Event.step], ?_, ?_, ?_⟩
    · cases k3 : env.layerFromReader resp.body <;> simp [Halted, hp, hg, hl, errOf, k3]
    · intro layer hk
      simp only at hk
      simp [hp, hg, hl, errOf, hk]
    · intro e2 he
      simp only at he
      exact ⟨[_, _], _, rfl, by simp [hl, errOf, he]⟩
  · have hp := errorOf_parseRequestURI_ok k1 (by tauto)
    have hl : env.errorOf (.layerFromFile u.path) =
        errOf ((env.layerFromFile u.path).mapError fun err => "file not valid: " ++ err) := rfl
    refine ⟨by simp [Ordered, Event.step], ?_, ?_, ?_⟩
    · cases k3 : env.layerFromFile u.path <;> simp [Halted, hp, hl, errOf, k3, Except.mapError]
    · intro layer hk
      simp only at hk
      simp [hp, hl, errOf, hk]
    · intro e2 he
      simp only at he
      exact ⟨[_], _, rfl, by simp [hl, errOf, he]⟩
  · have hp : env.errorOf (.parseRequestURI tarURL) = some ("invalid url: " ++ tarURL) := by
      simp only [Env.errorOf, k1]
      rw [if_neg]
      rintro (h | h | h)
      · exact hs (Or.inl h)
      · exact hs (Or.inr h)
      · exact hf h
    refine ⟨by simp [Ordered, Event.step], by simp [Halted, hp, errOf], by simp, ?_⟩
    intro e2 he
    simp only [Except.error.injEq] at he
    subst he
    exact ⟨[], _, rfl, hp⟩

/-- The publishing block: order, early stop, and what its error is. -/
theorem publish_steps (env : Env) (oref : Reference) (image : Image)
    (useDaemon useRemote : Bool) :
    Ordered 6 7 (publish env oref image useDaemon useRemote).trace ∧
    Halted env (errOf (publish env oref image useDaemon useRemote).result)
      (publish env oref image useDaemon useRemote).trace ∧
    (∀ e, (publish env oref image useDaemon useRemote).result = .error e →
      ∃ pre ev, (publish env oref image useDaemon useRemote).trace = pre ++ [ev] ∧
        env.errorOf ev = some e) := by
  rcases publish_cases env oref image useDaemon useRemote with
    ⟨-, -, h⟩ | ⟨-, -, h⟩ | ⟨-, e, k1, h⟩ | ⟨-, tag, e, k1, k2, h⟩ |
      ⟨-, -, tag, id, k1, k2, h⟩ | ⟨-, -, tag, id, k1, k2, h⟩ <;>
    rw [h]
  · simp [Ordered, Halted]
  · refine ⟨by simp [Ordered, Event.step], ?_, ?_⟩
    · cases k3 : env.remoteWrite oref image <;> simp [Halted, Env.errorOf, errOf, k3]
    · intro e2 he
      simp only at he
      exact ⟨[], _, rfl, by simp [Env.errorOf, errOf, he]⟩
  · refine ⟨by simp [Ordered, Event.step], by simp [Halted, Env.errorOf, errOf, k1], ?_⟩
    intro e2 he
    exact ⟨[], _, rfl, by simpa [Env.errorOf, errOf, k1] using he⟩
  · refine ⟨by simp [Ordered, Event.step], by simp [Halted, Env.errorOf, errOf, k1, k2], ?_⟩
    intro e2 he
    exact ⟨[_], _, rfl, by simpa [Env.errorOf, errOf, k2] using he⟩
  · simp [Ordered, Halted, Event.step, Env.errorOf, errOf, k1, k2]
  · refine ⟨by simp [Ordered, Event.step], ?_, ?_⟩
    · cases k3 : env.remoteWrite oref image <;> simp [Halted, Env.errorOf, errOf, k1, k2, k3]
    · intro e2 he
      simp only at he
      exact ⟨[_, _], _, rfl, by simp [Env.errorOf, errOf, he]⟩

theorem ordered_mono {lo hi lo2 hi2 : Nat} {t : List Event} (h : Ordered lo hi t)
    (h1 : lo2 ≤ lo) (h2 : hi ≤ hi2) : Ordered lo2 hi2 t := by
  refine ⟨h.1, fun n hn => ?_⟩
  have := h.2 n hn
  omega

theorem ordered_cons_none {lo hi : Nat} {ev : Event} {t : List Event} (hev : ev.step = none)
    (h : Ordered lo hi t) : Ordered lo hi (ev :: t) := by
  unfold Ordered
  rw [List.filterMap_cons_none hev]
  exact h

theorem ordered_append_call (base : Image) (layer : Layer) :
    Ordered 5 5 [Event.appendLayers base layer] := by
  simp [Ordered, Event.step]

theorem ordered_append_call_cons (base : Image) (layer : Layer) {t : List Event}
    (h : Ordered 6 7 t) : Ordered 5 7 (Event.appendLayers base layer :: t) :=
  ordered_append (ordered_append_call base layer) h (by omega) (by omega) (by omega)

theorem halted_cons {env : Env} {res : Option Error} {a : Event} {t : List Event}
    (ha : env.errorOf a = none) (h : Halted env res t) : Halted env res (a :: t) := by
  refine ⟨?_, h⟩
  intro e he
  rw [ha] at he
  cases he

/-- The whole run: its external effects come in pipeline order, a step that
failed is its last step, and an error it returns is the error of its last step. -/
theorem run_steps (env : Env) (tarURL baseImageName outputImageName : String)
    (useDaemon useRemote : Bool) :
    Ordered 1 7 (run env tarURL baseImageName outputImageName useDaemon useRemote).trace ∧
    Halted env (errOf (run env tarURL baseImageName outputImageName useDaemon useRemote).result)
      (run env tarURL baseImageName outputImageName useDaemon useRemote).trace ∧
    (∀ e, (run env tarURL baseImageName outputImageName useDaemon useRemote).result =
        .error e →
      ∃ pre ev, (run env tarURL baseImageName outputImageName useDaemon useRemote).trace =
        pre ++ [ev] ∧ env.errorOf ev = some e) := by
  have hpo : (Event.parseReference outputImageName).step = none := rfl
  obtain ⟨ob, hb, cb, eb⟩ := loadBase_steps env baseImageName useDaemon useRemote
  obtain ⟨ol, hl, cl, el⟩ := layerFrom_steps env tarURL
  rcases run_cases env tarURL baseImageName outputImageName useDaemon useRemote with
    ⟨e, k1, h⟩ | ⟨oref, e, k1, k2, h⟩ | ⟨oref, base, e, k1, k2, k3, h⟩ |
      ⟨oref, base, layer, e, k1, k2, k3, k4, h⟩ | ⟨oref, base, layer, image, k1, k2, k3, k4, h⟩ <;>
    rw [h]
  · have hp : env.errorOf (.parseReference outputImageName) = some e := by
      simp [Env.errorOf, errOf, k1]
    refine ⟨ordered_cons_none hpo (ordered_nil 1 7), by simp [Halted, hp, errOf], ?_⟩
    intro e2 he
    cases he
    exact ⟨[], _, rfl, hp⟩
  · have hp : env.errorOf (.parseReference outputImageName) = none := by
      simp [Env.errorOf, errOf, k1]
    rw [k2] at hb
    refine ⟨ordered_cons_none hpo (ordered_mono ob (le_refl _) (by omega)), ?_, ?_⟩
    · exact halted_cons hp hb
    · intro e2 he
      cases he
      obtain ⟨pre, ev, h1, h2⟩ := eb e k2
      exact ⟨.parseReference outputImageName :: pre, ev, by rw [h1]; rfl, h2⟩
  · have hp : env.errorOf (.parseReference outputImageName) = none := by
      simp [Env.errorOf, errOf, k1]
    rw [k3] at hl
    refine ⟨ordered_cons_none hpo
      (ordered_mono (ordered_append ob ol (by omega) (by omega) (by omega))
        (le_refl _) (by omega)), ?_, ?_⟩
    · exact halted_cons hp (halted_append (cb base k2) hl)
    · intro e2 he
      cases he
      obtain ⟨pre, ev, h1, h2⟩ := el e k3
      exact ⟨.parseReference outputImageName ::
        ((loadBase env baseImageName useDaemon useRemote).trace ++ pre), ev,
        by rw [h1]; simp, h2⟩
  · have hp : env.errorOf (.parseReference outputImageName) = none := by
      simp [Env.errorOf, errOf, k1]
    have ha : env.errorOf (.appendLayers base layer) = some e := by
      simp [Env.errorOf, errOf, k4]
    refine ⟨ordered_cons_none hpo
      (ordered_mono (ordered_append ob (ordered_append ol (ordered_append_call base layer)
        (by omega) (by omega) (by omega)) (by omega) (by omega) (by omega))
        (le_refl _) (by omega)), ?_, ?_⟩
    · refine halted_cons hp (halted_append (cb base k2) (halted_append (cl layer k3) ?_))
      simp [Halted, ha, errOf]
    · intro e2 he
      cases he
      exact ⟨.parseReference outputImageName ::
        ((loadBase env baseImageName useDaemon useRemote).trace ++ (layerFrom env tarURL).trace),
        _, by simp, ha⟩
  · have hp : env.errorOf (.parseReference outputImageName) = none := by
      simp [Env.errorOf, errOf, k1]
    have ha : env.errorOf (.appendLayers base layer) = none := by
      simp [Env.errorOf, errOf, k4]
    obtain ⟨op, hpub, ep⟩ := publish_steps env oref image useDaemon useRemote
    refine ⟨ordered_cons_none hpo
      (ordered_append ob (ordered_append ol (ordered_append_call_cons base layer op)
        (by omega) (by omega) (by omega)) (by omega) (by omega) (by omega)), ?_, ?_⟩
    · exact halted_cons hp
        (halted_append (cb base k2) (halted_append (cl layer k3) (halted_cons ha hpub)))
    · intro e2 he
      obtain ⟨pre, ev, h1, h2⟩ := ep e2 he
      exact ⟨.parseReference outputImageName ::
        ((loadBase env baseImageName useDaemon useRemote).trace ++
          ((layerFrom env tarURL).trace ++ (.appendLayers base layer :: pre))), ev,
        by rw [h1]; simp, h2⟩

/-- A write recorded in the trace of `run` was made by the publishing block, which
the run reached. -/
theorem run_write_mem {env : Env} {tarURL baseImageName outputImageName : String}
    {useDaemon useRemote : Bool} {ev : Event}
    (hev : ev ∈ (run env tarURL baseImageName outputImageName useDaemon useRemote).trace)
    (hw : ev.isWrite = true) :
    ∃ oref base layer image, env.parseReference outputImageName = .ok oref ∧
      ev ∈ (publish env oref image useDaemon useRemote).trace ∧
      run env tarURL baseImageName outputImageName useDaemon useRemote =
        ⟨.parseReference outputImageName ::
          ((loadBase env baseImageName useDaemon useRemote).trace ++
            ((layerFrom env tarURL).trace ++ (.appendLayers base layer ::
              (publish env oref image useDaemon useRemote).trace))),
          (publish env oref image useDaemon useRemote).result⟩ ∧
      ∀ ev2, ev2 ∈ (run env tarURL baseImageName outputImageName useDaemon useRemote).trace →
        ev2.isWrite = true → ev2 ∈ (publish env oref image useDaemon useRemote).trace := by
  rcases run_mem_trace hev with h | ⟨_, _, h⟩ | ⟨_, _, _, _, h⟩ |
    ⟨oref, base, layer, hp, hb, hl, h | ⟨image, ha, h⟩⟩
  · subst h; cases hw
  · rcases loadBase_shape h with h | ⟨s, h⟩ | ⟨-, t, h⟩ | ⟨-, t, h⟩ <;> subst h <;> cases hw
  · rcases layerFrom_shape h with h | h | ⟨t, h⟩ | ⟨t, h⟩ <;> subst h <;> cases hw
  · subst h; cases hw
  · have hrun := run_of_append_ok hp hb hl ha
    refine ⟨oref, base, layer, image, hp, h, hrun, ?_⟩
    intro ev2 hev2 hw2
    rw [hrun] at hev2
    simp only [List.mem_cons, List.mem_append] at hev2
    rcases hev2 with h | h | h | h | h
    · subst h; cases hw2
    · rcases loadBase_shape h with h | ⟨s, h⟩ | ⟨-, t, h⟩ | ⟨-, t, h⟩ <;> subst h <;> cases hw2
    · rcases layerFrom_shape h with h | h | ⟨t, h⟩ | ⟨t, h⟩ <;> subst h <;> cases hw2
    · subst h; cases hw2
    · exact h

theorem sampleEnv_appendContract : AppendContract sampleEnv := by
  intro image layer image2 h
  simp only [sampleEnv, Except.ok.injEq] at h
  rw [← h]

/-! ## The claims -/

/-- A run that returns no error went through all four blocks: it made one
`mutate.AppendLayers` call and every write carries the image that call returned. -/
theorem run_ok_shape (env : Env)
    (tarURL baseImageName outputImageName : String) (useDaemon useRemote : Bool)
    (hok : (run env tarURL baseImageName outputImageName useDaemon useRemote).result = .ok ()) :
    ∃ oref base layer image,
      env.parseReference outputImageName = .ok oref ∧
      (loadBase env baseImageName useDaemon useRemote).result = .ok base ∧
      (layerFrom env tarURL).result = .ok layer ∧
      env.appendLayers base layer = .ok image ∧
      (run env tarURL baseImageName outputImageName useDaemon useRemote).trace =
        .parseReference outputImageName ::
          ((loadBase env baseImageName useDaemon useRemote).trace ++
            ((layerFrom env tarURL).trace ++ (.appendLayers base layer ::
              (publish env oref image useDaemon useRemote).trace))) ∧
      (run env tarURL baseImageName outputImageName useDaemon useRemote).trace.filter
        Event.isAppend = [.appendLayers base layer] ∧
      (∀ tag i, .daemonWrite tag i ∈
        (run env tarURL baseImageName outputImageName useDaemon useRemote).trace → i = image) ∧
      (∀ ref i, .remoteWrite ref i ∈
        (run env tarURL baseImageName outputImageName useDaemon useRemote).trace → i = image) := by
  have hnoA : ∀ ev, ev ∈ (loadBase env baseImageName useDaemon useRemote).trace →
      ev.isAppend = false ∧ ev.isWrite = false := by
    intro ev h
    rcases loadBase_shape h with h | ⟨s, h⟩ | ⟨-, t, h⟩ | ⟨-, t, h⟩ <;> subst h <;> exact ⟨rfl, rfl⟩
  have hnoB : ∀ ev, ev ∈ (layerFrom env tarURL).trace →
      ev.isAppend = false ∧ ev.isWrite = false := by
    intro ev h
    rcases layerFrom_shape h with h | h | ⟨t, h⟩ | ⟨t, h⟩ <;> subst h <;> exact ⟨rfl, rfl⟩
  rcases run_cases env tarURL baseImageName outputImageName useDaemon useRemote with
    ⟨e, -, h⟩ | ⟨oref, e, -, -, h⟩ | ⟨oref, base, e, -, -, -, h⟩ |
      ⟨oref, base, layer, e, -, -, -, -, h⟩ | ⟨oref, base, layer, image, h1, h2, h3, h4, h⟩
  · rw [h] at hok; cases hok
  · rw [h] at hok; cases hok
  · rw [h] at hok; cases hok
  · rw [h] at hok; cases hok
  have hnoC : ∀ ev, ev ∈ (publish env oref image useDaemon useRemote).trace →
      ev.isAppend = false := by
    intro ev h
    rcases publish_shape h with ⟨-, h⟩ | ⟨-, t, h⟩ | ⟨-, h⟩ <;> subst h <;> rfl
  refine ⟨oref, base, layer, image, h1, h2, h3, h4, by rw [h], ?_, ?_, ?_⟩
  · rw [h]
    have e1 : (loadBase env baseImageName useDaemon useRemote).trace.filter Event.isAppend = [] :=
      List.filter_eq_nil_iff.mpr fun ev hev => by simp [(hnoA ev hev).1]
    have e2 : (layerFrom env tarURL).trace.filter Event.isAppend = [] :=
      List.filter_eq_nil_iff.mpr fun ev hev => by simp [(hnoB ev hev).1]
    have e3 : (publish env oref image useDaemon useRemote).trace.filter Event.isAppend = [] :=
      List.filter_eq_nil_iff.mpr fun ev hev => by simp [hnoC ev hev]
    simp [List.filter_cons, List.filter_append, e1, e2, e3, Event.isAppend]
  · intro tag i hmem
    rw [h] at hmem
    simp only [List.mem_cons, List.mem_append, reduceCtorEq, false_or] at hmem
    rcases hmem with hm | hm | hm
    · have := (hnoA _ hm).2; simp [Event.isWrite] at this
    · have := (hnoB _ hm).2; simp [Event.isWrite] at this
    · rcases publish_shape hm with ⟨-, h⟩ | ⟨-, t, h⟩ | ⟨-, h⟩
      · cases h
      · cases h; rfl
      · cases h
  · intro ref i hmem
    rw [h] at hmem
    simp only [List.mem_cons, List.mem_append, reduceCtorEq, false_or] at hmem
    rcases hmem with hm | hm | hm
    · have := (hnoA _ hm).2; simp [Event.isWrite] at this
    · have := (hnoB _ hm).2; simp [Event.isWrite] at this
    · rcases publish_shape hm with ⟨-, h⟩ | ⟨-, t, h⟩ | ⟨-, h⟩
      · cases h
      · cases h
      · cases h; rfl

/-- C1: when `run` returns no error, the image given to the publishing block is
the result of the one `mutate.AppendLayers` call of the run, applied to the image
the base-loading block chose and the layer the tar-source block built; every
write carries that image; and, `mutate.AppendLayers` keeping its contract, its
layers are the layers of the base followed by that layer, one more than the base
has (one in all when the base is the empty image). -/
theorem run_appends_one_layer (env : Env) (hlib : AppendContract env)
    (tarURL baseImageName outputImageName : String) (useDaemon useRemote : Bool)
    (hok : (run env tarURL baseImageName outputImageName useDaemon useRemote).result = .ok ()) :
    ∃ oref base layer image,
      env.parseReference outputImageName = .ok oref ∧
      (loadBase env baseImageName useDaemon useRemote).result = .ok base ∧
      (layerFrom env tarURL).result = .ok layer ∧
      env.appendLayers base layer = .ok image ∧
      (run env tarURL baseImageName outputImageName useDaemon useRemote).trace =
        .parseReference outputImageName ::
          ((loadBase env baseImageName useDaemon useRemote).trace ++
            ((layerFrom env tarURL).trace ++ (.appendLayers base layer ::
              (publish env oref image useDaemon useRemote).trace))) ∧
      (run env tarURL baseImageName outputImageName useDaemon useRemote).trace.filter
        Event.isAppend = [.appendLayers base layer] ∧
      (∀ tag i, .daemonWrite tag i ∈
        (run env tarURL baseImageName outputImageName useDaemon useRemote).trace → i = image) ∧
      (∀ ref i, .remoteWrite ref i ∈
        (run env tarURL baseImageName outputImageName useDaemon useRemote).trace → i = image) ∧
      image.layers = base.layers ++ [layer] ∧
      image.layers.length = base.layers.length + 1 ∧
      (base = emptyImage → image.layers.length = 1) := by
  obtain ⟨oref, base, layer, image, h1, h2, h3, h4, h5, h6, h7, h8⟩ :=
    run_ok_shape env tarURL baseImageName outputImageName useDaemon useRemote hok
  have hlayers := hlib base layer image h4
  refine ⟨oref, base, layer, image, h1, h2, h3, h4, h5, h6, h7, h8, hlayers, ?_, ?_⟩
  · rw [hlayers]; simp
  · intro hb
    rw [hlayers, hb]; rfl

/-- Witness for C1: base `alpine:3.19` loaded from the daemon, one layer from
`file:///tmp/a.tar`, published to the daemon. -/
theorem run_appends_one_layer_witness :
    AppendContract sampleEnv ∧
    (run sampleEnv "file:///tmp/a.tar" "alpine:3.19" "myimg:v2" true false).result = .ok () ∧
    ∃ oref base layer image,
      sampleEnv.parseReference "myimg:v2" = .ok oref ∧
      (loadBase sampleEnv "alpine:3.19" true false).result = .ok base ∧
      (layerFrom sampleEnv "file:///tmp/a.tar").result = .ok layer ∧
      sampleEnv.appendLayers base layer = .ok image ∧
      (run sampleEnv "file:///tmp/a.tar" "alpine:3.19" "myimg:v2" true false).trace =
        .parseReference "myimg:v2" ::
          ((loadBase sampleEnv "alpine:3.19" true false).trace ++
            ((layerFrom sampleEnv "file:///tmp/a.tar").trace ++ (.appendLayers base layer ::
              (publish sampleEnv oref image true false).trace))) ∧
      (run sampleEnv "file:///tmp/a.tar" "alpine:3.19" "myimg:v2" true false).trace.filter
        Event.isAppend = [.appendLayers base layer] ∧
      (∀ tag i, .daemonWrite tag i ∈
        (run sampleEnv "file:///tmp/a.tar" "alpine:3.19" "myimg:v2" true false).trace →
          i = image) ∧
      (∀ ref i, .remoteWrite ref i ∈
        (run sampleEnv "file:///tmp/a.tar" "alpine:3.19" "myimg:v2" true false).trace →
          i = image) ∧
      image.layers = base.layers ++ [layer] ∧
      image.layers.length = base.layers.length + 1 ∧
      (base = emptyImage → image.layers.length = 1) :=
  ⟨sampleEnv_appendContract, rfl,
    run_appends_one_layer sampleEnv sampleEnv_appendContract
      "file:///tmp/a.tar" "alpine:3.19" "myimg:v2" true false rfl⟩

/-- C2: with an empty base image name, whatever the two destination flags, the
trace of `run` has no daemon or registry load; any `mutate.AppendLayers` call in it
is applied to the empty image; and when `run` returns no error the one appended
image comes from the empty image and the layer built from the tar, every write
carries it, and (`mutate.AppendLayers` keeping its contract) its layers are
exactly that one layer. -/
theorem run_empty_base (env : Env) (tarURL outputImageName : String)
    (useDaemon useRemote : Bool) :
    (∀ ev, ev ∈ (run env tarURL "" outputImageName useDaemon useRemote).trace →
      ev.isLoad = false) ∧
    (∀ base layer, .appendLayers base layer ∈
      (run env tarURL "" outputImageName useDaemon useRemote).trace → base = emptyImage) ∧
    ((run env tarURL "" outputImageName useDaemon useRemote).result = .ok () →
      ∃ layer image,
        (layerFrom env tarURL).result = .ok layer ∧
        env.appendLayers emptyImage layer = .ok image ∧
        (run env tarURL "" outputImageName useDaemon useRemote).trace.filter Event.isAppend =
          [.appendLayers emptyImage layer] ∧
        (∀ tag i, .daemonWrite tag i ∈
          (run env tarURL "" outputImageName useDaemon useRemote).trace → i = image) ∧
        (∀ ref i, .remoteWrite ref i ∈
          (run env tarURL "" outputImageName useDaemon useRemote).trace → i = image) ∧
        (AppendContract env → image.layers = [layer] ∧ image.layers.length = 1)) := by
  have hlb := loadBase_empty env useDaemon useRemote
  refine ⟨?_, ?_, ?_⟩
  · intro ev hev
    rcases run_mem_trace hev with h | ⟨_, _, h⟩ | ⟨_, _, _, _, h⟩ |
      ⟨oref, base, layer, _, _, _, h | ⟨image, _, h⟩⟩
    · subst h; rfl
    · rw [hlb] at h; cases h
    · rcases layerFrom_shape h with h | h | ⟨t, h⟩ | ⟨t, h⟩ <;> subst h <;> rfl
    · subst h; rfl
    · rcases publish_shape h with ⟨-, h⟩ | ⟨-, t, h⟩ | ⟨-, h⟩ <;> subst h <;> rfl
  · intro b l hev
    rcases run_mem_trace hev with h | ⟨_, _, h⟩ | ⟨_, _, _, _, h⟩ |
      ⟨oref, base, layer, _, h2, _, h | ⟨image, _, h⟩⟩
    · cases h
    · rw [hlb] at h; cases h
    · rcases layerFrom_shape h with h | h | ⟨t, h⟩ | ⟨t, h⟩ <;> cases h
    · rw [hlb] at h2
      cases h2; cases h; rfl
    · rcases publish_shape h with ⟨-, h⟩ | ⟨-, t, h⟩ | ⟨-, h⟩ <;> cases h
  · intro hok
    obtain ⟨oref, base, layer, image, -, h2, h3, h4, -, h6, h7, h8⟩ :=
      run_ok_shape env tarURL "" outputImageName useDaemon useRemote hok
    rw [hlb] at h2
    cases h2
    refine ⟨layer, image, h3, h4, h6, h7, h8, fun hc => ?_⟩
    have h9 := hc emptyImage layer image h4
    rw [h9]
    exact ⟨rfl, rfl⟩

/-- Witness for C2: `file:///tmp/a.tar` published to the daemon as `myimg:v1`
with no base image. -/
theorem run_empty_base_witness :
    (run sampleEnv "file:///tmp/a.tar" "" "myimg:v1" true false).result = .ok () ∧
    AppendContract sampleEnv ∧
    ∃ layer image,
      (layerFrom sampleEnv "file:///tmp/a.tar").result = .ok layer ∧
      sampleEnv.appendLayers emptyImage layer = .ok image ∧
      image.layers = [layer] ∧ image.layers.length = 1 := by
  obtain ⟨layer, image, h1, h2, -, -, -, h3⟩ :=
    (run_empty_base sampleEnv "file:///tmp/a.tar" "myimg:v1" true false).2.2 rfl
  exact ⟨rfl, sampleEnv_appendContract, layer, image, h1, h2, h3 sampleEnv_appendContract⟩

/-- C3 as stated fails: the URI `ftp://host/a.tar` has scheme `ftp`, but with the
output reference `BAD`, which does not parse, `run` returns the error of
`name.ParseReference` and not `invalid url: ftp://host/a.tar`. -/
theorem run_other_scheme_counterexample :
    sampleEnv.parseRequestURI "ftp://host/a.tar" = .ok ⟨"ftp", "/a.tar"⟩ ∧
    run sampleEnv "ftp://host/a.tar" "" "BAD" true false =
      ⟨[.parseReference "BAD"], .error "could not parse reference: BAD"⟩ ∧
    (run sampleEnv "ftp://host/a.tar" "" "BAD" true false).result ≠
      .error "invalid url: ftp://host/a.tar" := by
  refine ⟨rfl, rfl, ?_⟩
  intro h
  have h2 : (run sampleEnv "ftp://host/a.tar" "" "BAD" true false).result =
      .error "could not parse reference: BAD" := rfl
  rw [h2] at h
  simp at h

/-- C3, amended: for a tar URI whose scheme is not `file`, `http` or `https`,
`run` returns an error and its trace has no layer construction, no append and no
write; and when the output reference parses and the base-loading block returns
an image, that error is exactly `invalid url: ` followed by the URI as given, and
parsing the URI is the last call made. -/
theorem run_other_scheme (env : Env) (tarURL baseImageName outputImageName : String)
    (useDaemon useRemote : Bool) (u : URL)
    (hu : env.parseRequestURI tarURL = .ok u)
    (h1 : u.scheme ≠ "file") (h2 : u.scheme ≠ "http") (h3 : u.scheme ≠ "https") :
    (∃ e, (run env tarURL baseImageName outputImageName useDaemon useRemote).result =
      .error e) ∧
    (∀ ev, ev ∈ (run env tarURL baseImageName outputImageName useDaemon useRemote).trace →
      ev.isLayer = false ∧ ev.isAppend = false ∧ ev.isWrite = false) ∧
    (∀ oref base, env.parseReference outputImageName = .ok oref →
      (loadBase env baseImageName useDaemon useRemote).result = .ok base →
      run env tarURL baseImageName outputImageName useDaemon useRemote =
        ⟨.parseReference outputImageName ::
          ((loadBase env baseImageName useDaemon useRemote).trace ++
            [.parseRequestURI tarURL]), .error ("invalid url: " ++ tarURL)⟩) := by
  have hlf := layerFrom_other_scheme hu h1 h2 h3
  have hlfr : (layerFrom env tarURL).result = .error ("invalid url: " ++ tarURL) := by rw [hlf]
  refine ⟨?_, ?_, ?_⟩
  · rcases run_cases env tarURL baseImageName outputImageName useDaemon useRemote with
      ⟨e, -, h⟩ | ⟨oref, e, -, -, h⟩ | ⟨oref, base, e, -, -, -, h⟩ |
        ⟨oref, base, layer, e, -, -, hl, -, h⟩ | ⟨oref, base, layer, image, -, -, hl, -, h⟩
    · exact ⟨e, by rw [h]⟩
    · exact ⟨e, by rw [h]⟩
    · exact ⟨e, by rw [h]⟩
    · rw [hlfr] at hl; cases hl
    · rw [hlfr] at hl; cases hl
  · intro ev hev
    rcases run_mem_trace hev with h | ⟨_, _, h⟩ | ⟨_, _, _, _, h⟩ | ⟨_, _, layer, _, _, hl, _⟩
    · subst h; exact ⟨rfl, rfl, rfl⟩
    · rcases loadBase_shape h with h | ⟨s, h⟩ | ⟨-, t, h⟩ | ⟨-, t, h⟩ <;> subst h <;>
        exact ⟨rfl, rfl, rfl⟩
    · rw [hlf] at h
      simp only [List.mem_singleton] at h
      subst h; exact ⟨rfl, rfl, rfl⟩
    · rw [hlfr] at hl; cases hl
  · intro oref base hp hb
    rw [run_of_layerFrom_error hp hb hlfr, hlf]

/-- Witness for C3, amended: scenario S4 of the spec, `-tar-uri=ftp://host/a.tar
-output-tag=x:1` with the default flags. -/
theorem run_other_scheme_witness :
    sampleEnv.parseRequestURI "ftp://host/a.tar" = .ok ⟨"ftp", "/a.tar"⟩ ∧
    run sampleEnv "ftp://host/a.tar" "" "x:1" true false =
      ⟨[.parseReference "x:1", .parseRequestURI "ftp://host/a.tar"],
        .error "invalid url: ftp://host/a.tar"⟩ :=
  ⟨rfl, (run_other_scheme sampleEnv "ftp://host/a.tar" "" "x:1" true false ⟨"ftp", "/a.tar"⟩ rfl
    (by decide) (by decide) (by decide)).2.2 ⟨"x:1"⟩ emptyImage rfl rfl⟩

/-- C4 as stated fails: the URI `https://example.test/missing.tar` has scheme
`https` and its GET is answered with status 404, but with the output reference
`BAD`, which does not parse, `run` returns the error of `name.ParseReference`
without issuing the GET, and not `file not valid: status code: 404`. -/
theorem run_http_status_counterexample :
    sampleEnv.parseRequestURI "https://example.test/missing.tar" =
      .ok ⟨"https", "/missing.tar"⟩ ∧
    sampleEnv.httpGet "https://example.test/missing.tar" = .ok ⟨404, ""⟩ ∧
    run sampleEnv "https://example.test/missing.tar" "" "BAD" true false =
      ⟨[.parseReference "BAD"], .error "could not parse reference: BAD"⟩ ∧
    (run sampleEnv "https://example.test/missing.tar" "" "BAD" true false).result ≠
      .error "file not valid: status code: 404" := by
  refine ⟨rfl, rfl, rfl, ?_⟩
  intro h
  have h2 : (run sampleEnv "https://example.test/missing.tar" "" "BAD" true false).result =
      .error "could not parse reference: BAD" := rfl
  rw [h2] at h
  simp at h

/-- C4, amended: for a tar URI whose scheme is `http` or `https` and whose GET is
answered with a status code N other than 200, `run` returns an error and its
trace has no layer construction, no append and no write; and when the output
reference parses and the base-loading block returns an image, `run` issues the
GET as its last call and that error is exactly `file not valid: status code: N`
with N in decimal. -/
theorem run_http_status (env : Env) (tarURL baseImageName outputImageName : String)
    (useDaemon useRemote : Bool) (u : URL) (resp : Response)
    (hu : env.parseRequestURI tarURL = .ok u)
    (hs : u.scheme = "http" ∨ u.scheme = "https")
    (hget : env.httpGet tarURL = .ok resp) (hN : resp.statusCode ≠ 200) :
    (∃ e, (run env tarURL baseImageName outputImageName useDaemon useRemote).result =
      .error e) ∧
    (∀ ev, ev ∈ (run env tarURL baseImageName outputImageName useDaemon useRemote).trace →
      ev.isLayer = false ∧ ev.isAppend = false ∧ ev.isWrite = false) ∧
    (∀ oref base, env.parseReference outputImageName = .ok oref →
      (loadBase env baseImageName useDaemon useRemote).result = .ok base →
      run env tarURL baseImageName outputImageName useDaemon useRemote =
        ⟨.parseReference outputImageName ::
          ((loadBase env baseImageName useDaemon useRemote).trace ++
            [.parseRequestURI tarURL, .httpGet tarURL]),
          .error ("file not valid: status code: " ++ toString resp.statusCode)⟩) := by
  have hlf := layerFrom_bad_status hu hs hget hN
  have hlfr : (layerFrom env tarURL).result =
      .error ("file not valid: status code: " ++ toString resp.statusCode) := by rw [hlf]
  refine ⟨?_, ?_, ?_⟩
  · rcases run_cases env tarURL baseImageName outputImageName useDaemon useRemote with
      ⟨e, -, h⟩ | ⟨oref, e, -, -, h⟩ | ⟨oref, base, e, -, -, -, h⟩ |
        ⟨oref, base, layer, e, -, -, hl, -, h⟩ | ⟨oref, base, layer, image, -, -, hl, -, h⟩
    · exact ⟨e, by rw [h]⟩
    · exact ⟨e, by rw [h]⟩
    · exact ⟨e, by rw [h]⟩
    · rw [hlfr] at hl; cases hl
    · rw [hlfr] at hl; cases hl
  · intro ev hev
    rcases run_mem_trace hev with h | ⟨_, _, h⟩ | ⟨_, _, _, _, h⟩ | ⟨_, _, layer, _, _, hl, _⟩
    · subst h; exact ⟨rfl, rfl, rfl⟩
    · rcases loadBase_shape h with h | ⟨s, h⟩ | ⟨-, t, h⟩ | ⟨-, t, h⟩ <;> subst h <;>
        exact ⟨rfl, rfl, rfl⟩
    · rw [hlf] at h
      simp only [List.mem_cons, List.mem_singleton, List.not_mem_nil, or_false] at h
      rcases h with h | h <;> subst h <;> exact ⟨rfl, rfl, rfl⟩
    · rw [hlfr] at hl; cases hl
  · intro oref base hp hb
    rw [run_of_layerFrom_error hp hb hlfr, hlf]

/-- Witness for C4, amended: scenario S3 of the spec, `-tar-uri=
https://example.test/missing.tar -output-tag=x:1` with the default flags and a
GET answered with status 404. -/
theorem run_http_status_witness :
    sampleEnv.parseRequestURI "https://example.test/missing.tar" =
      .ok ⟨"https", "/missing.tar"⟩ ∧
    sampleEnv.httpGet "https://example.test/missing.tar" = .ok ⟨404, ""⟩ ∧
    (404 : Int) ≠ 200 ∧
    run sampleEnv "https://example.test/missing.tar" "" "x:1" true false =
      ⟨[.parseReference "x:1", .parseRequestURI "https://example.test/missing.tar",
          .httpGet "https://example.test/missing.tar"],
        .error "file not valid: status code: 404"⟩ :=
  ⟨rfl, rfl, by decide,
    (run_http_status sampleEnv "https://example.test/missing.tar" "" "x:1" true false
      ⟨"https", "/missing.tar"⟩ ⟨404, ""⟩ rfl (Or.inr rfl) rfl (by decide)).2.2
      ⟨"x:1"⟩ emptyImage rfl rfl⟩

/-- C5: when `-tar-uri` or `-output-tag` is empty, `main` prints usage and exits
with status 1, and that is all it does: its trace holds no call of `run` (no
reference parsing, network, filesystem or daemon call).  When both are given, the
calls `main` makes are those of one `run` on the five flag values, followed by the
fatal log when `run` returns an error; the exit status is 0 when `run` returns no
error and 1 otherwise. -/
theorem main_requires_flags (env : Env) (flags : Flags) :
    (flags.tarURI = "" ∨ flags.outputImageTagName = "" →
      main env flags = ⟨[.usage], 1⟩ ∧
      ∀ ev, ev ∈ (main env flags).trace → ev.isCall = false) ∧
    (flags.tarURI ≠ "" → flags.outputImageTagName ≠ "" →
      Event.usage ∉ (main env flags).trace ∧
      (main env flags).trace.filter Event.isCall =
        (run env flags.tarURI flags.baseImageTagName flags.outputImageTagName
          flags.useDaemon flags.useRemote).trace ∧
      (∀ err, (run env flags.tarURI flags.baseImageTagName flags.outputImageTagName
          flags.useDaemon flags.useRemote).result = .error err →
        main env flags =
          ⟨(run env flags.tarURI flags.baseImageTagName flags.outputImageTagName
            flags.useDaemon flags.useRemote).trace ++ [.logFatal err], 1⟩) ∧
      ((run env flags.tarURI flags.baseImageTagName flags.outputImageTagName
          flags.useDaemon flags.useRemote).result = .ok () →
        main env flags =
          ⟨(run env flags.tarURI flags.baseImageTagName flags.outputImageTagName
            flags.useDaemon flags.useRemote).trace, 0⟩)) := by
  have hcall : ∀ ev, ev ∈ (run env flags.tarURI flags.baseImageTagName
      flags.outputImageTagName flags.useDaemon flags.useRemote).trace → ev.isCall = true := by
    intro ev hev
    rcases run_mem_trace hev with h | ⟨_, _, h⟩ | ⟨_, _, _, _, h⟩ |
      ⟨oref, base, layer, _, _, _, h | ⟨image, _, h⟩⟩
    · subst h; rfl
    · rcases loadBase_shape h with h | ⟨s, h⟩ | ⟨-, t, h⟩ | ⟨-, t, h⟩ <;> subst h <;> rfl
    · rcases layerFrom_shape h with h | h | ⟨t, h⟩ | ⟨t, h⟩ <;> subst h <;> rfl
    · subst h; rfl
    · rcases publish_shape h with ⟨-, h⟩ | ⟨-, t, h⟩ | ⟨-, h⟩ <;> subst h <;> rfl
  have hfilter : (run env flags.tarURI flags.baseImageTagName flags.outputImageTagName
      flags.useDaemon flags.useRemote).trace.filter Event.isCall =
      (run env flags.tarURI flags.baseImageTagName flags.outputImageTagName
        flags.useDaemon flags.useRemote).trace :=
    List.filter_eq_self.mpr hcall
  have hno : Event.usage ∉ (run env flags.tarURI flags.baseImageTagName
      flags.outputImageTagName flags.useDaemon flags.useRemote).trace := by
    intro h
    have := hcall _ h
    simp [Event.isCall] at this
  constructor
  · intro h
    have hm : main env flags = ⟨[.usage], 1⟩ := by simp [main, h]
    refine ⟨hm, ?_⟩
    intro ev hev
    rw [hm] at hev
    simp only [List.mem_singleton] at hev
    subst hev; rfl
  · intro h1 h2
    have hc : ¬ (flags.tarURI = "" ∨ flags.outputImageTagName = "") := by
      rintro (h | h)
      · exact h1 h
      · exact h2 h
    cases hr : run env flags.tarURI flags.baseImageTagName flags.outputImageTagName
      flags.useDaemon flags.useRemote with
    | mk trace result =>
      rw [hr] at hno hfilter
      cases result with
      | error err =>
        have hm : main env flags = ⟨trace ++ [.logFatal err], 1⟩ := by
          simp only [main, hc, if_false, hr]
        rw [hm]
        refine ⟨?_, ?_, ?_, ?_⟩
        · simpa using hno
        · simp only [List.filter_append, hfilter]
          simp [Event.isCall]
        · intro err2 h; cases h; rfl
        · intro h; cases h
      | ok v =>
        have hm : main env flags = ⟨trace, 0⟩ := by
          simp only [main, hc, if_false, hr]
        rw [hm]
        refine ⟨hno, hfilter, ?_, ?_⟩
        · intro err2 h; cases h
        · intro _; rfl

/-- Witness for C5: scenario S5 of the spec (no `-tar-uri`) exits with status 1
after printing usage, and scenario S1 runs `run` on the flag values and exits
with status 0. -/
theorem main_requires_flags_witness :
    main sampleEnv { outputImageTagName := "x:1" } = ⟨[.usage], 1⟩ ∧
    main sampleEnv { tarURI := "file:///tmp/a.tar", outputImageTagName := "myimg:v1" } =
      ⟨(run sampleEnv "file:///tmp/a.tar" "" "myimg:v1" true false).trace, 0⟩ :=
  ⟨((main_requires_flags sampleEnv { outputImageTagName := "x:1" }).1 (Or.inl rfl)).1,
    ((main_requires_flags sampleEnv
      { tarURI := "file:///tmp/a.tar", outputImageTagName := "myimg:v1" }).2
        (by decide) (by decide)).2.2.2 rfl⟩

/-- C6: with `useDaemon` true and an output reference whose conversion to a tag
fails with error `e`, the trace of `run` has no write at all, to the daemon or
(even with `useRemote` true) to the registry, and `run` never returns without an
error; when the conversion is made in the run, `run` returns `e`; and the
conversion is made, as the last call of the run, whenever the append succeeds. -/
theorem run_digest_output (env : Env) (tarURL baseImageName outputImageName : String)
    (useRemote : Bool) (oref : Reference) (e : Error)
    (hp : env.parseReference outputImageName = .ok oref)
    (ht : env.newTag oref.name = .error e) :
    (∀ ev, ev ∈ (run env tarURL baseImageName outputImageName true useRemote).trace →
      ev.isWrite = false) ∧
    (run env tarURL baseImageName outputImageName true useRemote).result ≠ .ok () ∧
    (Event.newTag oref.name ∈
        (run env tarURL baseImageName outputImageName true useRemote).trace →
      (run env tarURL baseImageName outputImageName true useRemote).result = .error e) ∧
    (∀ base layer image,
      (loadBase env baseImageName true useRemote).result = .ok base →
      (layerFrom env tarURL).result = .ok layer →
      env.appendLayers base layer = .ok image →
      run env tarURL baseImageName outputImageName true useRemote =
        ⟨.parseReference outputImageName ::
          ((loadBase env baseImageName true useRemote).trace ++
            ((layerFrom env tarURL).trace ++
              [.appendLayers base layer, .newTag oref.name])), .error e⟩) := by
  refine ⟨?_, ?_, ?_, ?_⟩
  · intro ev hev
    rcases run_mem_trace hev with h | ⟨_, _, h⟩ | ⟨_, _, _, _, h⟩ |
      ⟨oref2, base, layer, hp2, _, _, h | ⟨image, _, h⟩⟩
    · subst h; rfl
    · rcases loadBase_shape h with h | ⟨s, h⟩ | ⟨-, t, h⟩ | ⟨-, t, h⟩ <;> subst h <;> rfl
    · rcases layerFrom_shape h with h | h | ⟨t, h⟩ | ⟨t, h⟩ <;> subst h <;> rfl
    · subst h; rfl
    · rw [hp] at hp2; cases hp2
      rw [publish_tag_error image useRemote ht] at h
      simp only [List.mem_singleton] at h
      subst h; rfl
  · intro hok
    obtain ⟨oref2, base, layer, image, h1, h2, h3, h4, -, -, -, -⟩ :=
      run_ok_shape env tarURL baseImageName outputImageName true useRemote hok
    rw [hp] at h1; cases h1
    rw [run_of_append_ok hp h2 h3 h4, publish_tag_error image useRemote ht] at hok
    cases hok
  · intro hev
    rcases run_mem_trace hev with h | ⟨_, _, h⟩ | ⟨_, _, _, _, h⟩ |
      ⟨oref2, base, layer, hp2, hb, hl, h | ⟨image, ha, h⟩⟩
    · cases h
    · rw [run_of_loadBase_error tarURL hp (loadBase_tag_error h ht).1]
    · rcases layerFrom_shape h with h | h | ⟨t, h⟩ | ⟨t, h⟩ <;> cases h
    · cases h
    · rw [run_of_append_ok hp hb hl ha, publish_tag_error image useRemote ht]
  · intro base layer image hb hl ha
    rw [run_of_append_ok hp hb hl ha, publish_tag_error image useRemote ht]

/-- Witness for C6: an output reference with a digest, both destinations
requested: the run ends at the tag conversion. -/
theorem run_digest_output_witness :
    sampleEnv.parseReference "x@sha256:0" = .ok ⟨"x@sha256:0"⟩ ∧
    sampleEnv.newTag "x@sha256:0" =
      .error "repository can only contain the runes a-z0-9_-./: x@sha256:0" ∧
    run sampleEnv "file:///tmp/a.tar" "" "x@sha256:0" true true =
      ⟨[.parseReference "x@sha256:0", .parseRequestURI "file:///tmp/a.tar",
          .layerFromFile "/tmp/a.tar", .appendLayers emptyImage ⟨"/tmp/a.tar"⟩,
          .newTag "x@sha256:0"],
        .error "repository can only contain the runes a-z0-9_-./: x@sha256:0"⟩ :=
  ⟨rfl, rfl,
    (run_digest_output sampleEnv "file:///tmp/a.tar" "" "x@sha256:0" true ⟨"x@sha256:0"⟩
      "repository can only contain the runes a-z0-9_-./: x@sha256:0" rfl rfl).2.2.2
      emptyImage ⟨"/tmp/a.tar"⟩ ⟨[⟨"/tmp/a.tar"⟩], ""⟩ rfl rfl rfl⟩

/-- C7: with `useDaemon` and `useRemote` both false, an output reference that
parses, a base reference that (if given) parses, and a tar URI that yields a
layer which `mutate.AppendLayers` accepts, `run` returns no error (so `main`
exits with status 0), its calls are the parsing, the tar-source block and the
append onto the empty image, and its trace has no load and no write. -/
theorem run_dry (env : Env) (tarURL baseImageName outputImageName : String)
    (oref : Reference) (layer : Layer) (image : Image)
    (hp : env.parseReference outputImageName = .ok oref)
    (hb : baseImageName = "" ∨ ∃ bref, env.parseReference baseImageName = .ok bref)
    (hl : (layerFrom env tarURL).result = .ok layer)
    (ha : env.appendLayers emptyImage layer = .ok image) :
    (run env tarURL baseImageName outputImageName false false).result = .ok () ∧
    (run env tarURL baseImageName outputImageName false false).trace =
      .parseReference outputImageName ::
        ((if baseImageName = "" then [] else [.parseReference baseImageName]) ++
          ((layerFrom env tarURL).trace ++ [.appendLayers emptyImage layer])) ∧
    (∀ ev, ev ∈ (run env tarURL baseImageName outputImageName false false).trace →
      ev.isWrite = false ∧ ev.isLoad = false) ∧
    (tarURL ≠ "" → outputImageName ≠ "" →
      (main env ⟨tarURL, outputImageName, baseImageName, false, false⟩).exitCode = 0) := by
  have hlb : loadBase env baseImageName false false =
      ⟨if baseImageName = "" then [] else [.parseReference baseImageName],
        .ok emptyImage⟩ := by
    by_cases hne : baseImageName = ""
    · subst hne
      rw [loadBase_empty]; rfl
    · rcases hb with hb | ⟨bref, hb⟩
      · exact absurd hb hne
      · rw [loadBase_dry env baseImageName bref hne hb, if_neg hne]
  have hlbr : (loadBase env baseImageName false false).result = .ok emptyImage := by rw [hlb]
  have hrun := run_of_append_ok hp hlbr hl ha
  rw [publish_dry, hlb] at hrun
  have hres : (run env tarURL baseImageName outputImageName false false).result = .ok () := by
    rw [hrun]
  refine ⟨hres, by rw [hrun], ?_, ?_⟩
  · intro ev hev
    rw [hrun] at hev
    simp only [List.mem_cons, List.mem_append, List.mem_singleton, List.not_mem_nil,
      or_false] at hev
    rcases hev with h | h | h | h
    · subst h; exact ⟨rfl, rfl⟩
    · split at h
      · cases h
      · simp only [List.mem_singleton] at h
        subst h; exact ⟨rfl, rfl⟩
    · rcases layerFrom_shape h with h | h | ⟨t, h⟩ | ⟨t, h⟩ <;> subst h <;> exact ⟨rfl, rfl⟩
    · subst h; exact ⟨rfl, rfl⟩
  · intro h1 h2
    have hm := ((main_exit env ⟨tarURL, outputImageName, baseImageName, false, false⟩).2
      ⟨h1, h2⟩).2
    exact hm hres

/-- Witness for C7: a dry run of scenario S6 of the spec. -/
theorem run_dry_witness :
    sampleEnv.parseReference "myimg:v2" = .ok ⟨"myimg:v2"⟩ ∧
    sampleEnv.parseReference "alpine:3.19" = .ok ⟨"alpine:3.19"⟩ ∧
    (layerFrom sampleEnv "file:///tmp/a.tar").result = .ok ⟨"/tmp/a.tar"⟩ ∧
    sampleEnv.appendLayers emptyImage ⟨"/tmp/a.tar"⟩ = .ok ⟨[⟨"/tmp/a.tar"⟩], ""⟩ ∧
    (run sampleEnv "file:///tmp/a.tar" "alpine:3.19" "myimg:v2" false false).result = .ok () :=
  ⟨rfl, rfl, rfl, rfl,
    (run_dry sampleEnv "file:///tmp/a.tar" "alpine:3.19" "myimg:v2" ⟨"myimg:v2"⟩
      ⟨"/tmp/a.tar"⟩ ⟨[⟨"/tmp/a.tar"⟩], ""⟩ rfl (Or.inr ⟨⟨"alpine:3.19"⟩, rfl⟩) rfl rfl).1⟩

/-- C8: with a base image name and both `useDaemon` and `useRemote` true:
a remote load in the trace comes directly after a daemon load that succeeded;
when the tag conversion and the daemon load succeed the remote load is made next
and its result is the result of the base-loading block; the base of any append in
the trace is the image the remote load returned; and when the tag conversion or
the daemon load fails, `run` returns that error with that call as its last, so
with no remote load. -/
theorem run_both_loads (env : Env) (tarURL baseImageName outputImageName : String)
    (hne : baseImageName ≠ "") :
    (∀ ref, Event.remoteImage ref ∈
        (run env tarURL baseImageName outputImageName true true).trace →
      ∃ tag dimg rest, env.parseReference baseImageName = .ok ref ∧
        env.newTag ref.name = .ok tag ∧ env.daemonImage tag = .ok dimg ∧
        (run env tarURL baseImageName outputImageName true true).trace =
          .parseReference outputImageName :: .parseReference baseImageName ::
            .newTag ref.name :: .daemonImage tag :: .remoteImage ref :: rest) ∧
    (∀ oref bref tag dimg, env.parseReference outputImageName = .ok oref →
      env.parseReference baseImageName = .ok bref → env.newTag bref.name = .ok tag →
      env.daemonImage tag = .ok dimg →
      (loadBase env baseImageName true true).result = env.remoteImage bref ∧
      ∃ rest, (run env tarURL baseImageName outputImageName true true).trace =
        .parseReference outputImageName :: .parseReference baseImageName ::
          .newTag bref.name :: .daemonImage tag :: .remoteImage bref :: rest) ∧
    (∀ base layer, Event.appendLayers base layer ∈
        (run env tarURL baseImageName outputImageName true true).trace →
      ∃ bref tag dimg, env.parseReference baseImageName = .ok bref ∧
        env.newTag bref.name = .ok tag ∧ env.daemonImage tag = .ok dimg ∧
        env.remoteImage bref = .ok base) ∧
    (∀ oref bref e, env.parseReference outputImageName = .ok oref →
      env.parseReference baseImageName = .ok bref → env.newTag bref.name = .error e →
      run env tarURL baseImageName outputImageName true true =
        ⟨[.parseReference outputImageName, .parseReference baseImageName,
          .newTag bref.name], .error e⟩) ∧
    (∀ oref bref tag e, env.parseReference outputImageName = .ok oref →
      env.parseReference baseImageName = .ok bref → env.newTag bref.name = .ok tag →
      env.daemonImage tag = .error e →
      run env tarURL baseImageName outputImageName true true =
        ⟨[.parseReference outputImageName, .parseReference baseImageName,
          .newTag bref.name, .daemonImage tag], .error e⟩) := by
  refine ⟨?_, ?_, ?_, ?_, ?_⟩
  · intro ref hev
    have hin : ∃ oref, env.parseReference outputImageName = .ok oref ∧
        Event.remoteImage ref ∈ (loadBase env baseImageName true true).trace := by
      rcases run_mem_trace hev with h | ⟨oref, hp, h⟩ | ⟨_, _, _, _, h⟩ |
        ⟨oref, base, layer, _, _, _, h | ⟨image, _, h⟩⟩
      · cases h
      · exact ⟨oref, hp, h⟩
      · rcases layerFrom_shape h with h | h | ⟨t, h⟩ | ⟨t, h⟩ <;> cases h
      · cases h
      · rcases publish_shape h with ⟨-, h⟩ | ⟨-, t, h⟩ | ⟨-, h⟩ <;> cases h
    obtain ⟨oref, hp, hmem⟩ := hin
    obtain ⟨rest, hrest⟩ := run_trace_split tarURL baseImageName true true hp
    rcases loadBase_both env baseImageName hne with
      ⟨e, -, h⟩ | ⟨bref, e, -, -, h⟩ | ⟨bref, tag, e, -, -, -, h⟩ |
        ⟨bref, tag, dimg, h1, h2, h3, h⟩
    · rw [h] at hmem; simp at hmem
    · rw [h] at hmem; simp at hmem
    · rw [h] at hmem; simp at hmem
    · rw [h] at hmem hrest
      simp at hmem
      subst hmem
      exact ⟨tag, dimg, rest, h1, h2, h3, hrest⟩
  · intro oref bref tag dimg hp hb h2 h3
    obtain ⟨rest, hrest⟩ := run_trace_split tarURL baseImageName true true hp
    rcases loadBase_both env baseImageName hne with
      ⟨e, k1, -⟩ | ⟨b, e, k1, k2, -⟩ | ⟨b, t, e, k1, k2, k3, -⟩ | ⟨b, t, d, k1, k2, k3, h⟩
    · rw [hb] at k1; cases k1
    · rw [hb] at k1; cases k1
      rw [h2] at k2; cases k2
    · rw [hb] at k1; cases k1
      rw [h2] at k2; cases k2
      rw [h3] at k3; cases k3
    · rw [hb] at k1; cases k1
      rw [h2] at k2; cases k2
      rw [h] at hrest ⊢
      exact ⟨rfl, rest, hrest⟩
  · intro base layer hev
    have hin : (loadBase env baseImageName true true).result = .ok base := by
      rcases run_mem_trace hev with h | ⟨_, _, h⟩ | ⟨_, _, _, _, h⟩ |
        ⟨oref, b, l, _, hb, _, h | ⟨image, _, h⟩⟩
      · cases h
      · rcases loadBase_shape h with h | ⟨s, h⟩ | ⟨-, t, h⟩ | ⟨-, t, h⟩ <;> cases h
      · rcases layerFrom_shape h with h | h | ⟨t, h⟩ | ⟨t, h⟩ <;> cases h
      · cases h; exact hb
      · rcases publish_shape h with ⟨-, h⟩ | ⟨-, t, h⟩ | ⟨-, h⟩ <;> cases h
    rcases loadBase_both env baseImageName hne with
      ⟨e, -, h⟩ | ⟨bref, e, -, -, h⟩ | ⟨bref, tag, e, -, -, -, h⟩ |
        ⟨bref, tag, dimg, h1, h2, h3, h⟩
    · rw [h] at hin; cases hin
    · rw [h] at hin; cases hin
    · rw [h] at hin; cases hin
    · rw [h] at hin
      exact ⟨bref, tag, dimg, h1, h2, h3, hin⟩
  · intro oref bref e hp hb h2
    rcases loadBase_both env baseImageName hne with
      ⟨e2, k1, -⟩ | ⟨b, e2, k1, k2, h⟩ | ⟨b, t, e2, k1, k2, k3, -⟩ | ⟨b, t, d, k1, k2, k3, -⟩
    · rw [hb] at k1; cases k1
    · rw [hb] at k1; cases k1
      rw [h2] at k2; cases k2
      have hr : (loadBase env baseImageName true true).result = .error e := by rw [h]
      rw [run_of_loadBase_error tarURL hp hr, h]
    · rw [hb] at k1; cases k1
      rw [h2] at k2; cases k2
    · rw [hb] at k1; cases k1
      rw [h2] at k2; cases k2
  · intro oref bref tag e hp hb h2 h3
    rcases loadBase_both env baseImageName hne with
      ⟨e2, k1, -⟩ | ⟨b, e2, k1, k2, -⟩ | ⟨b, t, e2, k1, k2, k3, h⟩ | ⟨b, t, d, k1, k2, k3, -⟩
    · rw [hb] at k1; cases k1
    · rw [hb] at k1; cases k1
      rw [h2] at k2; cases k2
    · rw [hb] at k1; cases k1
      rw [h2] at k2; cases k2
      rw [h3] at k3; cases k3
      have hr : (loadBase env baseImageName true true).result = .error e := by rw [h]
      rw [run_of_loadBase_error tarURL hp hr, h]
    · rw [hb] at k1; cases k1
      rw [h2] at k2; cases k2
      rw [h3] at k3; cases k3

/-- Witness for C8: in the sample world both loads are made, daemon first; with
no image in the daemon the run ends at the daemon load. -/
theorem run_both_loads_witness :
    ("alpine:3.19" : String) ≠ "" ∧
    (∃ rest, (run sampleEnv "file:///tmp/a.tar" "alpine:3.19" "myimg:v2" true true).trace =
      .parseReference "myimg:v2" :: .parseReference "alpine:3.19" ::
        .newTag "alpine:3.19" :: .daemonImage ⟨"alpine:3.19"⟩ ::
        .remoteImage ⟨"alpine:3.19"⟩ :: rest) ∧
    run noDaemonImageEnv "file:///tmp/a.tar" "alpine:3.19" "myimg:v2" true true =
      ⟨[.parseReference "myimg:v2", .parseReference "alpine:3.19", .newTag "alpine:3.19",
        .daemonImage ⟨"alpine:3.19"⟩], .error "daemon: no such image"⟩ :=
  ⟨by decide,
    ((run_both_loads sampleEnv "file:///tmp/a.tar" "alpine:3.19" "myimg:v2" (by decide)).2.1
      ⟨"myimg:v2"⟩ ⟨"alpine:3.19"⟩ ⟨"alpine:3.19"⟩ ⟨[⟨"d0"⟩], "daemon"⟩ rfl rfl rfl rfl).2,
    (run_both_loads noDaemonImageEnv "file:///tmp/a.tar" "alpine:3.19" "myimg:v2"
      (by decide)).2.2.2.2 ⟨"myimg:v2"⟩ ⟨"alpine:3.19"⟩ ⟨"alpine:3.19"⟩
      "daemon: no such image" rfl rfl rfl rfl⟩

/-- C9: in every run the external effects come in one order (daemon load,
remote load, GET, layer construction, append, daemon write, registry write, each
at most once); a step that fails is the last step of the run and the run returns
its error; an error the run returns is the error of its last step; a daemon
write that fails leaves no registry write in the trace; and a registry write that
fails comes, when the daemon was requested too, directly after a daemon write of
the same image that succeeded. -/
theorem run_effect_order (env : Env) (tarURL baseImageName outputImageName : String)
    (useDaemon useRemote : Bool) :
    ((run env tarURL baseImageName outputImageName useDaemon useRemote).trace.filterMap
      Event.step).Pairwise (fun a b => a < b) ∧
    (∀ pre ev post e,
      (run env tarURL baseImageName outputImageName useDaemon useRemote).trace =
        pre ++ ev :: post →
      env.errorOf ev = some e →
      post = [] ∧
        (run env tarURL baseImageName outputImageName useDaemon useRemote).result = .error e) ∧
    (∀ e, (run env tarURL baseImageName outputImageName useDaemon useRemote).result =
        .error e →
      ∃ pre ev, (run env tarURL baseImageName outputImageName useDaemon useRemote).trace =
        pre ++ [ev] ∧ env.errorOf ev = some e) ∧
    (∀ tag image e, Event.daemonWrite tag image ∈
        (run env tarURL baseImageName outputImageName useDaemon useRemote).trace →
      env.daemonWrite tag image = .error e →
      (run env tarURL baseImageName outputImageName useDaemon useRemote).result = .error e ∧
      ∀ ref i, Event.remoteWrite ref i ∉
        (run env tarURL baseImageName outputImageName useDaemon useRemote).trace) ∧
    (∀ ref image e, Event.remoteWrite ref image ∈
        (run env tarURL baseImageName outputImageName useDaemon useRemote).trace →
      env.remoteWrite ref image = .error e →
      (run env tarURL baseImageName outputImageName useDaemon useRemote).result = .error e ∧
      (useDaemon = true → ∃ pre tag id,
        (run env tarURL baseImageName outputImageName useDaemon useRemote).trace =
          pre ++ [.daemonWrite tag image, .remoteWrite ref image] ∧
        env.daemonWrite tag image = .ok id)) := by
  obtain ⟨hord, hhalt, hlast⟩ :=
    run_steps env tarURL baseImageName outputImageName useDaemon useRemote
  refine ⟨hord.1, ?_, hlast, ?_, ?_⟩
  · intro pre ev post e ht he
    obtain ⟨h1, h2⟩ := halted_split hhalt pre ev post ht e he
    refine ⟨h1, ?_⟩
    cases hr : (run env tarURL baseImageName outputImageName useDaemon useRemote).result with
    | error e2 =>
      rw [hr] at h2
      simp only [errOf, Option.some.injEq] at h2
      rw [h2]
    | ok v =>
      rw [hr] at h2
      simp [errOf] at h2
  · intro tag image e hev he
    obtain ⟨oref, base, layer, image2, hp, hpub, hrun, hall⟩ := run_write_mem hev rfl
    rcases publish_cases env oref image2 useDaemon useRemote with
      ⟨-, -, h⟩ | ⟨-, -, h⟩ | ⟨-, e2, k1, h⟩ | ⟨-, t, e2, k1, k2, h⟩ |
        ⟨-, -, t, id, k1, k2, h⟩ | ⟨-, -, t, id, k1, k2, h⟩ <;>
      rw [h] at hpub hall hrun <;> simp at hpub
    · obtain ⟨h1, h2⟩ := hpub
      subst h1; subst h2
      rw [he] at k2; cases k2
      refine ⟨by rw [hrun], ?_⟩
      intro ref i hmem
      have := hall _ hmem rfl
      simp at this
    · obtain ⟨h1, h2⟩ := hpub
      subst h1; subst h2
      rw [he] at k2; cases k2
    · obtain ⟨h1, h2⟩ := hpub
      subst h1; subst h2
      rw [he] at k2; cases k2
  · intro ref image e hev he
    obtain ⟨oref, base, layer, image2, hp, hpub, hrun, hall⟩ := run_write_mem hev rfl
    rcases publish_cases env oref image2 useDaemon useRemote with
      ⟨-, -, h⟩ | ⟨hd, -, h⟩ | ⟨-, e2, k1, h⟩ | ⟨-, t, e2, k1, k2, h⟩ |
        ⟨-, -, t, id, k1, k2, h⟩ | ⟨-, -, t, id, k1, k2, h⟩ <;>
      rw [h] at hpub hall hrun <;> simp at hpub
    · obtain ⟨h1, h2⟩ := hpub
      subst h1; subst h2
      refine ⟨by rw [hrun]; exact he, ?_⟩
      intro hd2
      rw [hd] at hd2; cases hd2
    · obtain ⟨h1, h2⟩ := hpub
      subst h1; subst h2
      refine ⟨by rw [hrun]; exact he, ?_⟩
      intro _
      refine ⟨.parseReference outputImageName ::
        ((loadBase env baseImageName useDaemon useRemote).trace ++
          ((layerFrom env tarURL).trace ++
            [.appendLayers base layer, .newTag ref.name])), t, id, ?_, k2⟩
      rw [hrun]
      simp

/-- Witness for C9: with both destinations requested, a daemon that refuses the
write ends the run with no registry write, and a registry that refuses the write
ends the run after the daemon write was made. -/
theorem run_effect_order_witness :
    (Event.daemonWrite ⟨"myimg:v1"⟩ ⟨[⟨"/tmp/a.tar"⟩], ""⟩ ∈
        (run daemonDownEnv "file:///tmp/a.tar" "" "myimg:v1" true true).trace ∧
      daemonDownEnv.daemonWrite ⟨"myimg:v1"⟩ ⟨[⟨"/tmp/a.tar"⟩], ""⟩ =
        .error "daemon: connection refused" ∧
      (run daemonDownEnv "file:///tmp/a.tar" "" "myimg:v1" true true).result =
        .error "daemon: connection refused" ∧
      ∀ ref i, Event.remoteWrite ref i ∉
        (run daemonDownEnv "file:///tmp/a.tar" "" "myimg:v1" true true).trace) ∧
    (Event.remoteWrite ⟨"myimg:v1"⟩ ⟨[⟨"/tmp/a.tar"⟩], ""⟩ ∈
        (run registryDownEnv "file:///tmp/a.tar" "" "myimg:v1" true true).trace ∧
      registryDownEnv.remoteWrite ⟨"myimg:v1"⟩ ⟨[⟨"/tmp/a.tar"⟩], ""⟩ =
        .error "registry: unauthorized" ∧
      (run registryDownEnv "file:///tmp/a.tar" "" "myimg:v1" true true).result =
        .error "registry: unauthorized" ∧
      Event.daemonWrite ⟨"myimg:v1"⟩ ⟨[⟨"/tmp/a.tar"⟩], ""⟩ ∈
        (run registryDownEnv "file:///tmp/a.tar" "" "myimg:v1" true true).trace) :=
  ⟨⟨by decide, rfl,
      (run_effect_order daemonDownEnv "file:///tmp/a.tar" "" "myimg:v1" true true).2.2.2.1
        ⟨"myimg:v1"⟩ ⟨[⟨"/tmp/a.tar"⟩], ""⟩ "daemon: connection refused" (by decide) rfl⟩,
    ⟨by decide, rfl,
      ((run_effect_order registryDownEnv "file:///tmp/a.tar" "" "myimg:v1" true true).2.2.2.2
        ⟨"myimg:v1"⟩ ⟨[⟨"/tmp/a.tar"⟩], ""⟩ "registry: unauthorized" (by decide) rfl).1,
      by decide⟩⟩

/-- C10: with a base image name that parses and neither destination requested,
the trace of `run` has no load, any append in it is applied to the empty image,
and the run returns what the run with an empty base image name returns, its trace
being that run's trace with the parsing of the base name added in second place;
so when it returns no error the appended image is built on the empty image and
(`mutate.AppendLayers` keeping its contract) has that one layer, whatever the
daemon or the registry hold under the base name.  A base name that does not
parse makes the run return the parse error. -/
theorem run_dry_ignores_base (env : Env) (tarURL baseImageName outputImageName : String)
    (bref : Reference) (hne : baseImageName ≠ "")
    (hp : env.parseReference baseImageName = .ok bref) :
    (∀ ev, ev ∈ (run env tarURL baseImageName outputImageName false false).trace →
      ev.isLoad = false) ∧
    (∀ base layer, Event.appendLayers base layer ∈
      (run env tarURL baseImageName outputImageName false false).trace → base = emptyImage) ∧
    (run env tarURL baseImageName outputImageName false false).result =
      (run env tarURL "" outputImageName false false).result ∧
    (run env tarURL "" outputImageName false false).trace =
      (run env tarURL baseImageName outputImageName false false).trace.eraseIdx 1 ∧
    (∀ oref, env.parseReference outputImageName = .ok oref →
      (run env tarURL baseImageName outputImageName false false).trace =
        .parseReference outputImageName :: .parseReference baseImageName ::
          (run env tarURL "" outputImageName false false).trace.tail) ∧
    ((run env tarURL baseImageName outputImageName false false).result = .ok () →
      ∃ layer image,
        (layerFrom env tarURL).result = .ok layer ∧
        env.appendLayers emptyImage layer = .ok image ∧
        (run env tarURL baseImageName outputImageName false false).trace.filter
          Event.isAppend = [.appendLayers emptyImage layer] ∧
        (AppendContract env → image.layers = [layer] ∧ image.layers.length = 1)) ∧
    (∀ name oref e, name ≠ "" → env.parseReference outputImageName = .ok oref →
      env.parseReference name = .error e →
      run env tarURL name outputImageName false false =
        ⟨[.parseReference outputImageName, .parseReference name], .error e⟩) := by
  have hlb := loadBase_dry env baseImageName bref hne hp
  have hlb0 := loadBase_empty env false false
  have hrel : (run env tarURL baseImageName outputImageName false false).result =
        (run env tarURL "" outputImageName false false).result ∧
      (run env tarURL "" outputImageName false false).trace =
        (run env tarURL baseImageName outputImageName false false).trace.eraseIdx 1 ∧
      (∀ oref, env.parseReference outputImageName = .ok oref →
        (run env tarURL baseImageName outputImageName false false).trace =
          .parseReference outputImageName :: .parseReference baseImageName ::
            (run env tarURL "" outputImageName false false).trace.tail) := by
    cases hk : env.parseReference outputImageName with
    | error e =>
      rw [run_of_parse_error tarURL baseImageName false false hk,
        run_of_parse_error tarURL "" false false hk]
      exact ⟨rfl, rfl, fun oref h => by cases h⟩
    | ok oref =>
      rw [run_eq, run_eq, hlb, hlb0]
      simp only [Outcome.bind, call, hk]
      exact ⟨trivial, rfl, fun _ _ => rfl⟩
  refine ⟨?_, ?_, hrel.1, hrel.2.1, hrel.2.2, ?_, ?_⟩
  · intro ev hev
    rcases run_mem_trace hev with h | ⟨_, _, h⟩ | ⟨_, _, _, _, h⟩ |
      ⟨oref, base, layer, _, _, _, h | ⟨image, _, h⟩⟩
    · subst h; rfl
    · rw [hlb] at h
      simp only [List.mem_singleton] at h
      subst h; rfl
    · rcases layerFrom_shape h with h | h | ⟨t, h⟩ | ⟨t, h⟩ <;> subst h <;> rfl
    · subst h; rfl
    · rw [publish_dry] at h; cases h
  · intro b l hev
    rcases run_mem_trace hev with h | ⟨_, _, h⟩ | ⟨_, _, _, _, h⟩ |
      ⟨oref, base, layer, _, h2, _, h | ⟨image, _, h⟩⟩
    · cases h
    · rw [hlb] at h
      simp only [List.mem_singleton] at h
      cases h
    · rcases layerFrom_shape h with h | h | ⟨t, h⟩ | ⟨t, h⟩ <;> cases h
    · rw [hlb] at h2
      cases h2; cases h; rfl
    · rw [publish_dry] at h; cases h
  · intro hok
    obtain ⟨oref, base, layer, image, -, h2, h3, h4, -, h6, -, -⟩ :=
      run_ok_shape env tarURL baseImageName outputImageName false false hok
    rw [hlb] at h2
    cases h2
    refine ⟨layer, image, h3, h4, h6, fun hc => ?_⟩
    have h9 := hc emptyImage layer image h4
    rw [h9]
    exact ⟨rfl, rfl⟩
  · intro name oref e hn hk he
    rcases loadBase_cases env name false false with
      ⟨h0, -⟩ | ⟨-, e2, h1, h⟩ | ⟨-, b, h1, -⟩
    · exact absurd h0 hn
    · rw [he] at h1; cases h1
      have hr : (loadBase env name false false).result = .error e := by rw [h]
      rw [run_of_loadBase_error tarURL hk hr, h]
    · rw [he] at h1; cases h1

/-- Witness for C10: a dry run on the base `alpine:3.19`, which has two layers in
the registry and one in the daemon, appends onto the empty image. -/
theorem run_dry_ignores_base_witness :
    ("alpine:3.19" : String) ≠ "" ∧
    sampleEnv.parseReference "alpine:3.19" = .ok ⟨"alpine:3.19"⟩ ∧
    (run sampleEnv "file:///tmp/a.tar" "alpine:3.19" "myimg:v2" false false).result = .ok () ∧
    (run sampleEnv "file:///tmp/a.tar" "alpine:3.19" "myimg:v2" false false).result =
      (run sampleEnv "file:///tmp/a.tar" "" "myimg:v2" false false).result ∧
    ∀ base layer, Event.appendLayers base layer ∈
      (run sampleEnv "file:///tmp/a.tar" "alpine:3.19" "myimg:v2" false false).trace →
        base = emptyImage :=
  ⟨by decide, rfl, rfl,
    (run_dry_ignores_base sampleEnv "file:///tmp/a.tar" "alpine:3.19" "myimg:v2"
      ⟨"alpine:3.19"⟩ (by decide) rfl).2.2.1,
    (run_dry_ignores_base sampleEnv "file:///tmp/a.tar" "alpine:3.19" "myimg:v2"
      ⟨"alpine:3.19"⟩ (by decide) rfl).2.1⟩

end Tar2OciImage
